import Mathlib

/-!
# A verification model of the libcomp reactive composition core

This file gives a shallow embedding of the signal/slot dispatch subsystem
(`include/comp/concept/signal.hpp`, `signal_concept_impl.hpp`,
`slot_concept_impl.hpp`, `concept/core/signal_impl.hpp`) and of the reactive
property subsystem (`include/comp/concept/property.hpp`,
`property_concept_impl.hpp`, `expression_binding.hpp`, `include/comp/property.hpp`)
of the libcomp library, together with theorems about the embedded operations.

Modelling conventions:
* The embedding is sequential.  Mutex acquisitions (`Lockable`, `lock_guard`,
  `relock_guard`) guard against concurrent access only and are elided; the
  `FlagGuard` re-entrancy guards (`m_emitGuard`, `m_guardEvaluate`), which the
  code queries through `isLocked()`, are modelled explicitly as booleans.
* Recursion through user callbacks (nested emissions, binding expressions that
  read other properties) is bounded by an explicit fuel parameter; running out
  of fuel aborts the mutually recursive operation without touching the state.
* Slot objects are kept in a store that is never garbage collected: in the
  C++ code a slot is destroyed only after it has been removed from its
  signal's slot container, at which point every remaining handle to it is a
  weak handle whose observable behaviour (invalid, not activatable) agrees
  with a store entry whose connected flag is false.
* C++ exceptions (`bad_slot`, `bad_weak_ptr`, other callable exceptions)
  become an `Except` result threaded through the emission loop.
-/

deriving instance DecidableEq for Except

namespace LibComp

/-- Small association-list lookup: first entry with the given key. -/
def lookupAssoc {α : Type} : List (Nat × α) → Nat → Option α
  | [], _ => none
  | (j, a) :: rest, i => if j = i then some a else lookupAssoc rest i

/-- Small association-list update: rewrites the first entry with the given key. -/
def updAssoc {α : Type} : List (Nat × α) → Nat → (α → α) → List (Nat × α)
  | [], _, _ => []
  | (j, a) :: rest, i, f => if j = i then (j, f a) :: rest else (j, a) :: updAssoc rest i f

namespace Sig

/-- A tracker bound to a slot, as built by `SlotInterface::bind`
(slot_concept_impl.hpp): a `PtrTracker` around a raw `ConnectionTracker`
(whose `isValid` returns true unconditionally), a `WeakPtrTracker` around a
weak/shared pointer to an object (`isValid` locks the pointer), or a
user-supplied tracker whose `isValid` call throws. -/
inductive TrackerRef where
  | connTracker (tid : Nat)
  | weakTracker (oid : Nat)
  | throwingTracker
deriving DecidableEq, Repr

/-- The exceptions relevant to the emission loop of
`SignalConcept::operator()`: `bad_slot`, `bad_weak_ptr`, and any other
exception escaping the user callable. -/
inductive ExcKind where
  | badSlot
  | badWeak
  | other
deriving DecidableEq, Repr

/-- Deep embedding of the body of a slot callable.  A callable either returns
normally, throws, connects a new slot to the emitting signal, disconnects a
slot of the emitting signal through `SignalConcept::disconnect`, or re-enters
`operator()` on the emitting signal. -/
inductive SlotAction where
  | ret
  | raise (e : ExcKind)
  | connectNew (a : SlotAction)
  | disconnectId (i : Nat)
  | reemit
deriving DecidableEq, Repr

/-- A slot (`SlotConcept`): the monotone connected flag `m_isConnected`, the
bound trackers `m_trackers`, and the callable `activateOverride`. -/
structure Slot where
  connected : Bool
  trackers : List TrackerRef
  action : SlotAction
deriving DecidableEq, Repr

/-- State of one signal together with the objects its slots observe.
`slots` is the store of slot objects ever created, `slotList` the signal's
`m_slots` in connection order, `objects` the set of live weak-tracked
objects, `trackerConns` the `m_trackedConnections` list of every live
`ConnectionTracker`, and `log` the global list of slot activations. -/
structure SigState where
  slots : List (Nat × Slot)
  slotList : List Nat
  nextId : Nat
  blocked : Bool
  emitGuard : Bool
  objects : List Nat
  trackerConns : List (Nat × List Nat)
  log : List Nat
deriving DecidableEq, Repr

/-- Look a slot up in the store. -/
def lookupSlot (s : SigState) (i : Nat) : Option Slot :=
  lookupAssoc s.slots i

/-- Rewrite a slot in the store. -/
def updateSlot (s : SigState) (i : Nat) (f : Slot → Slot) : SigState :=
  { s with slots := updAssoc s.slots i f }

/-- `TrackerInterface::isValid` for each tracker adapter; a user tracker may
throw out of the query. -/
def trackerIsValid (s : SigState) : TrackerRef → Except Unit Bool
  | .connTracker _ => .ok true
  | .weakTracker oid => .ok (s.objects.contains oid)
  | .throwingTracker => .error ()

/-- The `find_if` over the trackers inside `SlotConcept::isConnected`
(slot_concept_impl.hpp:150-171) and `core::Slot::isConnected`
(core/signal_impl.hpp:8-29): searches for a tracker whose `isValid` is
false, propagating an exception thrown by a query. -/
def findInvalidTracker (s : SigState) : List TrackerRef → Except Unit Bool
  | [] => .ok false
  | t :: ts =>
    match trackerIsValid s t with
    | .error e => .error e
    | .ok true => findInvalidTracker s ts
    | .ok false => .ok true

/-- `SlotConcept::isConnected`: false when the connected flag is cleared;
otherwise true iff no tracker reports invalid, with any exception from the
tracker queries swallowed into false by the catch-all handler. -/
def slotIsConnected (s : SigState) (sl : Slot) : Bool :=
  if !sl.connected then false
  else
    match findInvalidTracker s sl.trackers with
    | .ok found => !found
    | .error _ => false

/-- `Connection::operator bool` (concept/signal.hpp:95-99): the handle is
valid iff the weak slot pointer locks and the slot is connected. -/
def connIsValid (s : SigState) (i : Nat) : Bool :=
  match lookupSlot s i with
  | none => false
  | some sl => slotIsConnected s sl

/-- `ConnectionTracker::untrack`: erase the first occurrence of the
connection from the tracker's tracked-connection list (`erase_first`). -/
def trackerUntrack (s : SigState) (tid i : Nat) : SigState :=
  { s with trackerConns := updAssoc s.trackerConns tid (fun l => l.erase i) }

/-- The untrack fan-out inside `SlotConcept::disconnect`: each bound tracker
adapter is told to untrack the slot; only the `PtrTracker` adapter reaches a
`ConnectionTracker` list (a plain weak/shared pointer tracker has nothing to
update). -/
def slotUntrackAll (s : SigState) (i : Nat) : List TrackerRef → SigState
  | [] => s
  | .connTracker tid :: ts => slotUntrackAll (trackerUntrack s tid i) i ts
  | _ :: ts => slotUntrackAll s i ts

/-- `SlotConcept::disconnect` (slot_concept_impl.hpp:173-190), which is also
what `Connection::disconnect` performs after locking the weak handle:
exchange the connected flag; if it was already false, return; otherwise
untrack from every bound tracker and clear the tracker list. -/
def connDisconnect (s : SigState) (i : Nat) : SigState :=
  match lookupSlot s i with
  | none => s
  | some sl =>
    if sl.connected = false then s
    else
      let s1 := updateSlot s i (fun sl => { sl with connected := false })
      let s2 := slotUntrackAll s1 i sl.trackers
      updateSlot s2 i (fun sl => { sl with trackers := [] })

/-- `SignalConcept::disconnect` (signal_concept_impl.hpp:154-172): lock the
handle; if the slot is not found in `m_slots`, return; otherwise erase every
occurrence from `m_slots` (`comp::erase`) and disconnect the slot. -/
def signalDisconnect (s : SigState) (i : Nat) : SigState :=
  match lookupSlot s i with
  | none => s
  | some _ =>
    if i ∈ s.slotList then
      connDisconnect { s with slotList := s.slotList.filter (fun j => j ≠ i) } i
    else s

/-- The tracking fan-out of `Connection::bind`: each `PtrTracker` adapter
records the connection in its `ConnectionTracker`
(`ConnectionTracker::track`); plain weak/shared pointer trackers record
nothing. -/
def slotTrackAll (s : SigState) (i : Nat) : List TrackerRef → SigState
  | [] => s
  | .connTracker tid :: ts =>
    slotTrackAll
      { s with trackerConns := updAssoc s.trackerConns tid (fun l => l ++ [i]) } i ts
  | _ :: ts => slotTrackAll s i ts

/-- `SignalConcept::addSlot` plus `Connection::bind` of the given trackers:
store the new slot, append it to `m_slots`, and record the connection in
every bound `ConnectionTracker`. -/
def connect (s : SigState) (a : SlotAction) (trs : List TrackerRef) : SigState × Nat :=
  let i := s.nextId
  let s1 : SigState :=
    { s with
      slots := s.slots ++ [(i, { connected := true, trackers := trs, action := a })]
      slotList := s.slotList ++ [i]
      nextId := i + 1 }
  (slotTrackAll s1 i trs, i)

/-- Create a fresh `ConnectionTracker` with an empty tracked-connection list. -/
def newTracker (s : SigState) (tid : Nat) : SigState :=
  { s with trackerConns := s.trackerConns ++ [(tid, [])] }

/-- The loop of `ConnectionTracker::disconnectTrackedConnections`
(concept/signal.hpp:160-169): while the tracked list is non-empty, pop the
back connection and disconnect it. -/
def trackerClearLoop : Nat → SigState → Nat → SigState
  | 0, s, _ => s
  | fuel + 1, s, tid =>
    match lookupAssoc s.trackerConns tid with
    | none => s
    | some l =>
      match l.getLast? with
      | none => s
      | some c =>
        let s1 : SigState :=
          { s with trackerConns := updAssoc s.trackerConns tid (fun l => l.dropLast) }
        trackerClearLoop fuel (connDisconnect s1 c) tid

/-- `~ConnectionTracker` (concept/signal.hpp:137-182): run
`disconnectTrackedConnections`, then drop the tracker object. -/
def trackerDestroy (s : SigState) (tid : Nat) : SigState :=
  let n := match lookupAssoc s.trackerConns tid with
    | none => 0
    | some l => l.length
  let s1 := trackerClearLoop (n + 1) s tid
  { s1 with trackerConns := s1.trackerConns.filter (fun e => e.1 ≠ tid) }

/-- The snapshot taken by `SignalConcept::operator()` after it erased the
disconnected slots under the signal lock. -/
def emitSnapshot (s : SigState) : List Nat :=
  s.slotList.filter (connIsValid s)

/-- The four mutually recursive pieces of `SignalConcept::operator()`: the
emission entry, the dispatch loop over the snapshot, the visit of one
snapshot slot, and the activation of its callable. -/
inductive SigCall where
  | callEmit (s : SigState)
  | callLoop (snap : List Nat) (s : SigState) (acc : Nat)
  | callVisit (i : Nat) (rest : List Nat) (s : SigState) (acc : Nat)
  | callRun (i : Nat) (rest : List Nat) (s : SigState) (acc : Nat) (a : SlotAction)
deriving Repr

/-- The state an emission call carries, used as the result when the fuel is
exhausted. -/
def SigCall.state : SigCall → SigState
  | .callEmit s => s
  | .callLoop _ s _ => s
  | .callVisit _ _ s _ => s
  | .callRun _ _ s _ _ => s

/-- The accumulated collector count of an emission call. -/
def SigCall.count : SigCall → Nat
  | .callEmit _ => 0
  | .callLoop _ _ acc => acc
  | .callVisit _ _ _ acc => acc
  | .callRun _ _ _ acc _ => acc

/-- One fuelled interpreter for the mutually recursive emission of
`SignalConcept::operator()` (signal_concept_impl.hpp:187-240) with the
default void collector (which counts handled activations and never stops the
loop).

* `callEmit`: return the empty collector when blocked or when the emit guard
  is already locked; otherwise lock the guard, erase disconnected slots,
  snapshot the slot list, dispatch the snapshot, and release the guard on
  every exit path (`lock_guard` RAII).  An uncaught exception is returned as
  `.error`.
* `callLoop`: visit each snapshot slot in order.
* `callVisit`: skip the snapshot slot if it is no longer connected (a
  snapshot slot disconnected before its turn is never invoked); otherwise
  run its callable.
* `callRun`: a normal return of the callable is handled by the collector
  (count, log) before the loop continues; `bad_slot` and `bad_weak_ptr` make
  the signal disconnect that slot and continue with the next one; any other
  exception propagates out of the emission. -/
def sigStep : Nat → SigCall → SigState × Except Unit Nat
  | 0, c => (c.state, .ok c.count)
  | f + 1, .callEmit s =>
    if s.blocked || s.emitGuard then (s, .ok 0)
    else
      let s1 : SigState := { s with emitGuard := true }
      let s2 : SigState := { s1 with slotList := s1.slotList.filter (connIsValid s1) }
      let r := sigStep f (.callLoop s2.slotList s2 0)
      ({ r.1 with emitGuard := false }, r.2)
  | _ + 1, .callLoop [] s acc => (s, .ok acc)
  | f + 1, .callLoop (i :: rest) s acc => sigStep f (.callVisit i rest s acc)
  | f + 1, .callVisit i rest s acc =>
    (match lookupSlot s i with
    | none => sigStep f (.callLoop rest s acc)
    | some sl =>
      if !slotIsConnected s sl then sigStep f (.callLoop rest s acc)
      else sigStep f (.callRun i rest s acc sl.action))
  | f + 1, .callRun i rest s acc a =>
    (match a with
    | .ret => sigStep f (.callLoop rest { s with log := s.log ++ [i] } (acc + 1))
    | .raise .badSlot => sigStep f (.callLoop rest (signalDisconnect s i) acc)
    | .raise .badWeak => sigStep f (.callLoop rest (signalDisconnect s i) acc)
    | .raise .other => (s, .error ())
    | .connectNew a2 =>
      let s1 := (connect s a2 []).1
      sigStep f (.callLoop rest { s1 with log := s1.log ++ [i] } (acc + 1))
    | .disconnectId j =>
      let s1 := signalDisconnect s j
      sigStep f (.callLoop rest { s1 with log := s1.log ++ [i] } (acc + 1))
    | .reemit =>
      match sigStep f (.callEmit s) with
      | (s1, .ok _) => sigStep f (.callLoop rest { s1 with log := s1.log ++ [i] } (acc + 1))
      | (s1, .error e) => (s1, .error e))

/-- `SignalConcept::operator()`: the emission entry point. -/
def emit (fuel : Nat) (s : SigState) : SigState × Except Unit Nat :=
  sigStep fuel (.callEmit s)

/-- The dispatch loop of an emission over a snapshot. -/
def emitLoop (fuel : Nat) (snap : List Nat) (s : SigState) (acc : Nat) :
    SigState × Except Unit Nat :=
  sigStep fuel (.callLoop snap s acc)

/-- The visit of one snapshot slot inside the dispatch loop. -/
def emitVisit (fuel i : Nat) (rest : List Nat) (s : SigState) (acc : Nat) :
    SigState × Except Unit Nat :=
  sigStep fuel (.callVisit i rest s acc)

/-- The activation of one snapshot slot's callable inside the dispatch loop. -/
def emitRun (fuel i : Nat) (rest : List Nat) (s : SigState) (acc : Nat) (a : SlotAction) :
    SigState × Except Unit Nat :=
  sigStep fuel (.callRun i rest s acc a)

end Sig

namespace Prp

/-- `WriteBehavior` (concept/property.hpp:104-111). -/
inductive WriteBehavior where
  | keep
  | discard
deriving DecidableEq, Repr

/-- `PropertyValueState` (concept/property.hpp:89-102). -/
inductive PropertyValueState where
  | detached
  | attaching
  | detaching
  | active
  | inactive
deriving DecidableEq, Repr

/-- Deep embedding of a binding expression: an integer literal, a read of a
property (which goes through the property getter, i.e. the active provider's
`evaluate`), or a sum of two expressions. -/
inductive Expr where
  | lit (n : Int)
  | read (p : Nat)
  | add (a b : Expr)
deriving DecidableEq, Repr

/-- The two overridable implementations of `PropertyValue` exercised by the
library: a stored cell with compare-and-store `setOverride`
(`PropertyData`/user data providers) and an `ExpressionBinding`, whose
`setOverride` asserts and reports no change. -/
inductive ProvImpl where
  | stored (v : Int)
  | binding (e : Expr)
deriving DecidableEq, Repr

/-- A `PropertyValue` object (concept/property.hpp:123-203) together with its
`core::Value` base: write behavior, state, owning property `m_target`, the
`m_guardEvaluate` re-entrancy flag, the overridable implementation, the
tracked connections of its `ConnectionTracker` base and `m_sourceProperties`. -/
structure Provider where
  writeBehavior : WriteBehavior
  state : PropertyValueState
  target : Option Nat
  guardEvaluate : Bool
  impl : ProvImpl
  trackedConnections : List Nat
  sourceProperties : List Nat
deriving DecidableEq, Repr

/-- A slot connected to a `changed` signal: either an external observer that
bumps a counter on activation, or the forwarding slot (`SignalSlot`) created
by `source.changed.connect(target.changed)` inside
`BindingScope::trackProperty`.  Neither kind binds trackers. -/
inductive CSlotKind where
  | counter (cid : Nat)
  | forward (target : Nat)
deriving DecidableEq, Repr

/-- A slot object of a `changed` signal. -/
structure CSlot where
  connected : Bool
  kind : CSlotKind
deriving DecidableEq, Repr

/-- A `changed` signal (`ChangeSignalType = Signal<void()>`): its `m_slots`
in connection order, the emit guard, the blocked flag, and the tracked
connections of its own `ConnectionTracker` base (filled by
`receiver.track(...)` when the signal is the receiver of a signal-to-signal
connection). -/
structure ChangedSig where
  slots : List Nat
  emitGuard : Bool
  blocked : Bool
  trackedConnections : List Nat
deriving DecidableEq, Repr

/-- A `PropertyCore`/`PropertyConcept` object: the `changed` signal, the
provider stack `m_vp` (bottom first, newest at the back), the weak pointer
`m_active`, and `m_connectedPropertyValues` of the `core::Property` base. -/
structure PropCore where
  changed : ChangedSig
  vp : List Nat
  active : Option Nat
  connectedPropertyValues : List Nat
deriving DecidableEq, Repr

/-- The full state of the property subsystem: stores of property cores,
providers, changed-signal slots and observer counters, the id sources, and
the thread-local `BindingScope` statics (`current`, `targetChangeSignal`). -/
structure PState where
  props : List (Nat × PropCore)
  provs : List (Nat × Provider)
  cslots : List (Nat × CSlot)
  counters : List (Nat × Nat)
  nextProp : Nat
  nextProv : Nat
  nextCSlot : Nat
  scopeCurrent : Option Nat
  scopeTargetSignal : Option Nat
deriving DecidableEq, Repr

/-- Look up a property core. -/
def lookupProp (s : PState) (i : Nat) : Option PropCore :=
  lookupAssoc s.props i

/-- Look up a provider. -/
def lookupProv (s : PState) (i : Nat) : Option Provider :=
  lookupAssoc s.provs i

/-- Look up a changed-signal slot. -/
def lookupCSlot (s : PState) (i : Nat) : Option CSlot :=
  lookupAssoc s.cslots i

/-- Rewrite a property core. -/
def updateProp (s : PState) (i : Nat) (f : PropCore → PropCore) : PState :=
  { s with props := updAssoc s.props i f }

/-- Rewrite a provider. -/
def updateProv (s : PState) (i : Nat) (f : Provider → Provider) : PState :=
  { s with provs := updAssoc s.provs i f }

/-- Rewrite a changed-signal slot. -/
def updateCSlot (s : PState) (i : Nat) (f : CSlot → CSlot) : PState :=
  { s with cslots := updAssoc s.cslots i f }

/-- `BindingScope::trackProperty` (concept/property.hpp:230-235): when a
binding scope is installed, connect the observed property's `changed` signal
to the scope target's `changed` signal (a forwarding slot appended to the
source signal, tracked by the receiver signal), let the current provider
track the connection, and register the source property / dependent provider
pair (`core::Value::trackSource`). -/
def trackProperty (s : PState) (srcPid : Nat) : PState :=
  match s.scopeCurrent, s.scopeTargetSignal with
  | some cur, some tgt =>
    let sid := s.nextCSlot
    let s1 : PState :=
      { s with
        cslots := s.cslots ++ [(sid, { connected := true, kind := .forward tgt })]
        nextCSlot := sid + 1 }
    let s2 := updateProp s1 srcPid (fun pc =>
      { pc with changed := { pc.changed with slots := pc.changed.slots ++ [sid] } })
    let s3 := updateProp s2 tgt (fun pc =>
      { pc with changed :=
        { pc.changed with trackedConnections := pc.changed.trackedConnections ++ [sid] } })
    let s4 := updateProv s3 cur (fun p =>
      { p with trackedConnections := p.trackedConnections ++ [sid] })
    let s5 := updateProp s4 srcPid (fun pc =>
      { pc with connectedPropertyValues := pc.connectedPropertyValues ++ [cur] })
    updateProv s5 cur (fun p =>
      { p with sourceProperties := p.sourceProperties ++ [srcPid] })
  | _, _ => s

/-- The `clearTrackables` of a provider's `ConnectionTracker` base
(`disconnectTrackedConnections`): disconnect every tracked connection, newest
first, and clear the list.  The slots of a `changed` signal bind no trackers,
so disconnecting them only clears their connected flag. -/
def clearTrackables (s : PState) (vid : Nat) : PState :=
  match lookupProv s vid with
  | none => s
  | some p =>
    let s1 := p.trackedConnections.reverse.foldl
      (fun st sid => updateCSlot st sid (fun c => { c with connected := false })) s
    updateProv s1 vid (fun p => { p with trackedConnections := [] })

/-- Connect an observer that bumps counter `cid` to the `changed` signal of
property `pid` (`SignalConcept::connect(function)` followed by `addSlot`). -/
def connectCounter (s : PState) (pid cid : Nat) : PState :=
  let sid := s.nextCSlot
  let s1 : PState :=
    { s with
      cslots := s.cslots ++ [(sid, { connected := true, kind := .counter cid })]
      counters := s.counters ++ [(cid, 0)]
      nextCSlot := sid + 1 }
  updateProp s1 pid (fun pc =>
    { pc with changed := { pc.changed with slots := pc.changed.slots ++ [sid] } })

/-- Read an observer counter. -/
def counterValue (s : PState) (cid : Nat) : Nat :=
  (lookupAssoc s.counters cid).getD 0

/-- Helper: the state of a provider, `.detached` when it does not exist. -/
def provState (s : PState) (vid : Nat) : PropertyValueState :=
  match lookupProv s vid with
  | none => .detached
  | some p => p.state

/-- Helper: whether a provider has `WriteBehavior::Discard`. -/
def provIsDiscard (s : PState) (vid : Nat) : Bool :=
  match lookupProv s vid with
  | none => false
  | some p => p.writeBehavior = .discard

/-- The two mutually recursive pieces of a `changed` emission: the emission
entry for a property's `changed` signal and the dispatch loop over its
snapshot. -/
inductive ChCall where
  | callSig (pid : Nat) (s : PState)
  | callLoop (snap : List Nat) (s : PState)

/-- The state a `changed`-emission call carries, used as the result when the
fuel is exhausted. -/
def ChCall.state : ChCall → PState
  | .callSig _ s => s
  | .callLoop _ s => s

/-- One fuelled interpreter for `ChangeSignalType` emission, i.e.
`SignalConcept::operator()` (signal_concept_impl.hpp:187-240) on the
`changed` signal of a property.

* `callSig pid`: return when blocked or re-entered, otherwise lock the
  guard, erase disconnected slots, snapshot, dispatch, release the guard.
* `callLoop`: skip disconnected snapshot slots; a counter slot bumps its
  counter; a forwarding slot (`SignalSlot::activateOverride`) invokes the
  receiver signal, i.e. emits the target property's `changed`. -/
def chStep : Nat → ChCall → PState
  | 0, c => c.state
  | f + 1, .callSig pid s =>
    (match lookupProp s pid with
    | none => s
    | some pc =>
      if pc.changed.blocked || pc.changed.emitGuard then s
      else
        let s1 := updateProp s pid (fun pc =>
          { pc with changed := { pc.changed with emitGuard := true } })
        let keep := fun (sid : Nat) =>
          match lookupCSlot s1 sid with
          | none => false
          | some c => c.connected
        let snap := (match lookupProp s1 pid with
          | none => []
          | some pc => pc.changed.slots.filter keep)
        let s2 := updateProp s1 pid (fun pc =>
          { pc with changed := { pc.changed with slots := pc.changed.slots.filter keep } })
        let s3 := chStep f (.callLoop snap s2)
        updateProp s3 pid (fun pc =>
          { pc with changed := { pc.changed with emitGuard := false } }))
  | _ + 1, .callLoop [] s => s
  | f + 1, .callLoop (sid :: rest) s =>
    (match lookupCSlot s sid with
    | none => chStep f (.callLoop rest s)
    | some c =>
      if !c.connected then chStep f (.callLoop rest s)
      else
        match c.kind with
        | .counter cid =>
          chStep f (.callLoop rest
            { s with counters := updAssoc s.counters cid (fun n => n + 1) })
        | .forward tgt => chStep f (.callLoop rest (chStep f (.callSig tgt s))))

/-- `ChangeSignalType` emission on the `changed` signal of property `pid`. -/
def emitChanged (fuel : Nat) (pid : Nat) (s : PState) : PState :=
  chStep fuel (.callSig pid s)

/-- The dispatch loop of a `changed` emission. -/
def emitChangedLoop (fuel : Nat) (snap : List Nat) (s : PState) : PState :=
  chStep fuel (.callLoop snap s)

/-- The three mutually recursive pieces of property evaluation: a provider's
`evaluate`, the evaluation of a binding expression, and the property
getter. -/
inductive EvCall where
  | callValue (vid : Nat) (s : PState)
  | callExpr (e : Expr) (s : PState)
  | callGet (pid : Nat) (s : PState)

/-- The state an evaluation call carries, used as the result when the fuel
is exhausted. -/
def EvCall.state : EvCall → PState
  | .callValue _ s => s
  | .callExpr _ s => s
  | .callGet _ s => s

/-- One fuelled interpreter for property evaluation.

* `callValue vid`: `PropertyValue::evaluate`
  (property_concept_impl.hpp:22-41): if the `m_guardEvaluate` flag is
  already locked, return the value type's default; otherwise lock the guard,
  call `BindingScope::trackProperty` on the owning property when a binding
  scope is installed, run `evaluateOverride`, and release the guard.  A
  binding's `evaluateOverride` (expression_binding.hpp:29-33) installs a
  `BindingScope` (saving and restoring the previous thread-local scope)
  around the expression.
* `callExpr e`: evaluate a binding expression; a property read goes through
  the property getter.
* `callGet pid`: the property getter `Property::operator DataType`
  (property.hpp:84-87), `getActiveValue()->evaluate()`. -/
def evalStep : Nat → EvCall → PState × Int
  | 0, c => (c.state, 0)
  | f + 1, .callValue vid s =>
    (match lookupProv s vid with
    | none => (s, 0)
    | some p =>
      if p.guardEvaluate then (s, 0)
      else
        let s1 := updateProv s vid (fun p => { p with guardEvaluate := true })
        let s2 :=
          if s1.scopeCurrent.isSome then
            match p.target with
            | some t => trackProperty s1 t
            | none => s1
          else s1
        let r :=
          match p.impl with
          | .stored v => (s2, v)
          | .binding e =>
            let prevCur := s2.scopeCurrent
            let prevSig := s2.scopeTargetSignal
            let s3 : PState :=
              { s2 with scopeCurrent := some vid, scopeTargetSignal := p.target }
            let r1 := evalStep f (.callExpr e s3)
            ({ r1.1 with scopeCurrent := prevCur, scopeTargetSignal := prevSig }, r1.2)
        (updateProv r.1 vid (fun p => { p with guardEvaluate := false }), r.2))
  | f + 1, .callExpr e s =>
    (match e with
    | .lit n => (s, n)
    | .read p => evalStep f (.callGet p s)
    | .add a b =>
      let r1 := evalStep f (.callExpr a s)
      let r2 := evalStep f (.callExpr b r1.1)
      (r2.1, r1.2 + r2.2))
  | f + 1, .callGet pid s =>
    (match lookupProp s pid with
    | none => (s, 0)
    | some pc =>
      match pc.active with
      | none => (s, 0)
      | some vid => evalStep f (.callValue vid s))

/-- `PropertyValue::evaluate` of provider `vid`. -/
def evaluateValue (fuel : Nat) (vid : Nat) (s : PState) : PState × Int :=
  evalStep fuel (.callValue vid s)

/-- Evaluation of a binding expression. -/
def evalExpr (fuel : Nat) (e : Expr) (s : PState) : PState × Int :=
  evalStep fuel (.callExpr e s)

/-- The property getter of property `pid`. -/
def propGet (fuel : Nat) (pid : Nat) (s : PState) : PState × Int :=
  evalStep fuel (.callGet pid s)

/-- `PropertyValue::set` (property_concept_impl.hpp:43-51): run
`setOverride`; when it reports a change and the provider is active, emit the
owning property's `changed`.  The stored-cell `setOverride`
(property.hpp:30-38) compares and stores; a binding's `setOverride` reports
no change. -/
def setValue (fuel : Nat) (vid : Nat) (v : Int) (s : PState) : PState :=
  match fuel with
  | 0 => s
  | f + 1 =>
    match lookupProv s vid with
    | none => s
    | some p =>
      match p.impl with
      | .binding _ => s
      | .stored w =>
        if w = v then s
        else
          let s1 := updateProv s vid (fun p => { p with impl := .stored v })
          if p.state = .active then
            match p.target with
            | some t => emitChanged f t s1
            | none => s1
          else s1

/-- `PropertyValue::setState` (property_concept_impl.hpp:16-20) together with
`onStateChanged` (property_concept_impl.hpp:97-117): store the state, then on
Active run `evaluate`, and on Inactive or Detaching run `clearTrackables`. -/
def setStateV (fuel : Nat) (vid : Nat) (st : PropertyValueState) (s : PState) : PState :=
  match fuel with
  | 0 => s
  | f + 1 =>
    let s1 := updateProv s vid (fun p => { p with state := st })
    match st with
    | .active => (evaluateValue f vid s1).1
    | .inactive => clearTrackables s1 vid
    | .detaching => clearTrackables s1 vid
    | _ => s1

/-- `PropertyValue::activate` (property_concept_impl.hpp:60-69): when
Inactive, transition to Active (which re-evaluates) and emit the owning
property's `changed`. -/
def activateValue (fuel : Nat) (vid : Nat) (s : PState) : PState :=
  match fuel with
  | 0 => s
  | f + 1 =>
    if provState s vid = .inactive then
      let s1 := setStateV f vid .active s
      match lookupProv s1 vid with
      | some p =>
        match p.target with
        | some t => emitChanged f t s1
        | none => s1
      | none => s1
    else s

/-- `PropertyValue::deactivate` (property_concept_impl.hpp:71-76):
transition to Inactive (which clears the tracked connections). -/
def deactivateValue (fuel : Nat) (vid : Nat) (s : PState) : PState :=
  match fuel with
  | 0 => s
  | f + 1 => setStateV f vid .inactive s

/-- `PropertyValue::attach` (property_concept_impl.hpp:78-85): transition
through Attaching, store the owning property, become Inactive. -/
def attachValue (fuel : Nat) (vid pid : Nat) (s : PState) : PState :=
  match fuel with
  | 0 => s
  | f + 1 =>
    let s1 := setStateV f vid .attaching s
    let s2 := updateProv s1 vid (fun p => { p with target := some pid })
    setStateV f vid .inactive s2

/-- `PropertyValue::detach` (property_concept_impl.hpp:87-94): transition
through Detaching (clearing tracked connections), reset the owning property,
become Detached. -/
def detachValue (fuel : Nat) (vid : Nat) (s : PState) : PState :=
  match fuel with
  | 0 => s
  | f + 1 =>
    let s1 := setStateV f vid .detaching s
    let s2 := updateProv s1 vid (fun p => { p with target := none })
    setStateV f vid .detached s2

/-- `PropertyConcept::addPropertyValue` (property_concept_impl.hpp:137-155):
push the provider on the stack, attach it, deactivate the previously active
provider, make the new one the active provider and activate it. -/
def addPropertyValue (fuel : Nat) (pid vid : Nat) (s : PState) : PState :=
  match fuel with
  | 0 => s
  | f + 1 =>
    let s1 := updateProp s pid (fun pc => { pc with vp := pc.vp ++ [vid] })
    let s2 := attachValue f vid pid s1
    let prev := match lookupProp s2 pid with
      | none => none
      | some pc => pc.active
    let s3 := match prev with
      | some pvid => deactivateValue f pvid s2
      | none => s2
    let s4 := updateProp s3 pid (fun pc => { pc with active := some vid })
    activateValue f vid s4

/-- `PropertyConcept::discardValues` (property_concept_impl.hpp:185-212):
deactivate and remove every provider with `WriteBehavior::Discard` (the
container's invalidator detaches each removed provider), and when the active
provider was removed, make the top remaining provider active and activate
it. -/
def discardValues (fuel : Nat) (pid : Nat) (s : PState) : PState :=
  match fuel with
  | 0 => s
  | f + 1 =>
    match lookupProp s pid with
    | none => s
    | some pc =>
      let discardIds := pc.vp.filter (fun vid => provIsDiscard s vid)
      let checkNewActive := discardIds.any (fun vid => provState s vid = .active)
      let s1 := discardIds.foldl
        (fun st vid => if provState st vid = .active then deactivateValue f vid st else st) s
      let s2 := discardIds.foldl (fun st vid => detachValue f vid st) s1
      let s3 := updateProp s2 pid (fun pc =>
        { pc with vp := pc.vp.filter (fun vid => !provIsDiscard s vid) })
      if checkNewActive then
        match (match lookupProp s3 pid with
          | none => none
          | some pc => pc.vp.getLast?) with
        | some last =>
          let s4 := updateProp s3 pid (fun pc => { pc with active := some last })
          activateValue f last s4
        | none => updateProp s3 pid (fun pc => { pc with active := none })
      else s3

/-- The property setter `Property::operator=` (property.hpp:92-96): run
`discardValues`, then `set` on the now-active provider. -/
def propSet (fuel : Nat) (pid : Nat) (v : Int) (s : PState) : PState :=
  match fuel with
  | 0 => s
  | f + 1 =>
    let s1 := discardValues f pid s
    match lookupProp s1 pid with
    | none => s1
    | some pc =>
      match pc.active with
      | none => s1
      | some vid => setValue f vid v s1

/-- The `Property` constructor (property.hpp:64-67): create a property core
and hand a fresh Keep `PropertyData` provider holding the initial value to
`PropertyConcept`'s constructor, which adds it through `addPropertyValue`. -/
def newProperty (fuel : Nat) (v : Int) (s : PState) : PState × Nat :=
  match fuel with
  | 0 => (s, 0)
  | f + 1 =>
    let pid := s.nextProp
    let s1 : PState :=
      { s with
        props := s.props ++
          [(pid, { changed := { slots := [], emitGuard := false, blocked := false,
                                trackedConnections := [] },
                   vp := [], active := none, connectedPropertyValues := [] })]
        nextProp := pid + 1 }
    let vid := s1.nextProv
    let s2 : PState :=
      { s1 with
        provs := s1.provs ++
          [(vid, { writeBehavior := .keep, state := .detached, target := none,
                   guardEvaluate := false, impl := .stored v,
                   trackedConnections := [], sourceProperties := [] })]
        nextProv := vid + 1 }
    (addPropertyValue f pid vid s2, pid)

/-- `PropertyConcept::bind` (property_concept_impl.hpp:220-228): create an
`ExpressionBinding` provider (with `WriteBehavior::Discard`) around the
expression and add it through `addPropertyValue`; return the binding. -/
def bindExpr (fuel : Nat) (pid : Nat) (e : Expr) (s : PState) : PState × Nat :=
  match fuel with
  | 0 => (s, 0)
  | f + 1 =>
    let vid := s.nextProv
    let s1 : PState :=
      { s with
        provs := s.provs ++
          [(vid, { writeBehavior := .discard, state := .detached, target := none,
                   guardEvaluate := false, impl := .binding e,
                   trackedConnections := [], sourceProperties := [] })]
        nextProv := vid + 1 }
    (addPropertyValue f pid vid s1, vid)

/-- A user provider (as in the repository's `UserData` test fixture) with a
given write behavior and initial stored value, added to a property through
the public `addPropertyValue`. -/
def addUserValue (fuel : Nat) (pid : Nat) (wb : WriteBehavior) (v : Int) (s : PState) :
    PState × Nat :=
  let vid := s.nextProv
  let s1 : PState :=
    { s with
      provs := s.provs ++
        [(vid, { writeBehavior := wb, state := .detached, target := none,
                 guardEvaluate := false, impl := .stored v,
                 trackedConnections := [], sourceProperties := [] })]
      nextProv := vid + 1 }
  (addPropertyValue fuel pid vid s1, vid)

/-- The empty property-subsystem state. -/
def emptyPState : PState :=
  { props := [], provs := [], cslots := [], counters := [],
    nextProp := 0, nextProv := 0, nextCSlot := 0,
    scopeCurrent := none, scopeTargetSignal := none }

end Prp

namespace Sig

/-- A signal state in which every stored slot callable either returns
normally or fails with `bad_slot`/`bad_weak_ptr` (no callable throws a
foreign exception). -/
def benignActions (s : SigState) : Prop :=
  ∀ e ∈ s.slots, e.2.action = SlotAction.ret ∨
    e.2.action = SlotAction.raise ExcKind.badSlot ∨
    e.2.action = SlotAction.raise ExcKind.badWeak

instance (s : SigState) : Decidable (benignActions s) :=
  List.decidableBAll
    (fun (e : Nat × Slot) => e.2.action = SlotAction.ret ∨
      e.2.action = SlotAction.raise ExcKind.badSlot ∨
      e.2.action = SlotAction.raise ExcKind.badWeak) s.slots

/-- The connected flag of slot `i` is off (or no such slot exists). -/
def slotFlagOff (s : SigState) (i : Nat) : Prop :=
  ∀ sl, lookupSlot s i = some sl → sl.connected = false

/-- The `m_trackedConnections` list of the `ConnectionTracker` with id
`tid` (empty when the tracker does not exist). -/
def trackedOf (s : SigState) (tid : Nat) : List Nat :=
  (lookupAssoc s.trackerConns tid).getD []

/-- The empty signal state. -/
def sig0 : SigState :=
  { slots := [], slotList := [], nextId := 0, blocked := false, emitGuard := false,
    objects := [], trackerConns := [], log := [] }

/-- Scene: slot 0 connects a new slot to the emitting signal from inside its
callable, slot 1 is a plain callable. -/
def sceneConn : SigState :=
  (connect (connect sig0 (.connectNew .ret) []).1 .ret []).1

/-- Scene: slot 0 disconnects slot 1 (which comes later in the snapshot)
from inside its callable; slots 1 and 2 are plain callables. -/
def sceneSkip : SigState :=
  (connect (connect (connect sig0 (.disconnectId 1) []).1 .ret []).1 .ret []).1

/-- Scene: slot 1 throws `bad_slot` from its activation, slots 0 and 2 are
plain callables. -/
def sceneBad : SigState :=
  (connect (connect (connect sig0 .ret []).1 (.raise .badSlot) []).1 .ret []).1

/-- Scene: slot 1 throws a foreign exception from its callable. -/
def sceneOther : SigState :=
  (connect (connect (connect sig0 .ret []).1 (.raise .other) []).1 .ret []).1

/-- Scene: a single slot that re-enters `operator()` on its own signal. -/
def sceneReent : SigState :=
  (connect sig0 .reemit []).1

/-- Scene: a `ConnectionTracker` (id 0) bound to two function slots. -/
def sceneTrk : SigState :=
  (connect (connect (newTracker sig0 0) .ret [.connTracker 0]).1 .ret [.connTracker 0]).1

/-- Scene: a single connected function slot. -/
def sceneOne : SigState :=
  (connect sig0 .ret []).1

end Sig

namespace Prp

/-- Scene 4 of the specification, step by step.
`P = Property(0)` (property 0, stored provider 0). -/
def sceneS4a : PState × Nat := newProperty 30 0 emptyPState

/-- `Q = Property(0)` (property 1, stored provider 1). -/
def sceneS4b : PState × Nat := newProperty 30 0 sceneS4a.1

/-- An observer counting the activations of `P.changed` (counter 0). -/
def sceneS4c : PState := connectCounter sceneS4b.1 0 0

/-- `P.bind(|| Q + 1)` (binding provider 2). -/
def sceneS4d : PState × Nat := bindExpr 30 0 (.add (.read 1) (.lit 1)) sceneS4c

/-- The state after the scenario's `assert P.get() == 1` read. -/
def sceneS4e : PState := (propGet 30 0 sceneS4d.1).1

/-- `Q.set(10)`. -/
def sceneS4f : PState := propSet 30 1 10 sceneS4e

/-- Scene 5 continuation: `assert P.get() == 11` then `P.set(99)`. -/
def sceneS5a : PState := propSet 30 0 99 (propGet 30 0 sceneS4f).1

/-- `Q.set(20)`. -/
def sceneS5b : PState := propSet 30 1 20 sceneS5a

/-- Scene for provider activation: a property holding 0 (property 0,
stored provider 0) with a `changed` observer (counter 0). -/
def sceneAddA : PState := connectCounter (newProperty 30 0 emptyPState).1 0 0

/-- A user provider with `WriteBehavior::Discard` storing the same value 0
is added on top (provider 1). -/
def sceneAddB : PState × Nat := addUserValue 30 0 .discard 0 sceneAddA

/-- Scene for cyclic evaluation: a property holding 0 with a `changed`
observer, bound to the expression `P + 1` which reads the property itself
(binding provider 1). -/
def sceneCyc : PState × Nat :=
  bindExpr 30 0 (.add (.read 0) (.lit 1)) (connectCounter (newProperty 30 0 emptyPState).1 0 0)

/-- The write behavior recorded for provider `vid` (`none` when absent).
`WriteBehavior` is fixed at construction and never written afterwards. -/
def wbOf (s : PState) (vid : Nat) : Option WriteBehavior :=
  (lookupProv s vid).map (fun p => p.writeBehavior)

/-- The provider stack `m_vp` of property `pid` (`none` when absent). -/
def vpOf (s : PState) (pid : Nat) : Option (List Nat) :=
  (lookupProp s pid).map (fun pc => pc.vp)

/-- Two states agree on every provider's write behavior. -/
def wbEq (s1 s2 : PState) : Prop :=
  ∀ v, wbOf s1 v = wbOf s2 v

/-- Two states agree on every property's provider stack. -/
def vpEq (s1 s2 : PState) : Prop :=
  ∀ p, vpOf s1 p = vpOf s2 p

/-- Two states agree on write behaviors and provider stacks: the relation
preserved by every property operation except `discardValues` (the only code
that rewrites `m_vp`). -/
def stackEq (s1 s2 : PState) : Prop :=
  wbEq s1 s2 ∧ vpEq s1 s2

end Prp

/-! ## Helper lemmas -/

theorem lookupAssoc_updAssoc_self {α : Type} (l : List (Nat × α)) (i : Nat) (f : α → α) :
    lookupAssoc (updAssoc l i f) i = (lookupAssoc l i).map f := by
  induction l with
  | nil => rfl
  | cons e rest ih =>
    obtain ⟨j, a⟩ := e
    by_cases h : j = i <;> simp [lookupAssoc, updAssoc, h, ih]

theorem lookupAssoc_updAssoc_ne {α : Type} (l : List (Nat × α)) (i j : Nat) (f : α → α)
    (h : j ≠ i) : lookupAssoc (updAssoc l j f) i = lookupAssoc l i := by
  induction l with
  | nil => rfl
  | cons e rest ih =>
    obtain ⟨k, a⟩ := e
    by_cases hk : k = j
    · subst hk
      simp [lookupAssoc, updAssoc, h]
    · simp [lookupAssoc, updAssoc, hk, ih]

theorem lookupAssoc_mem {α : Type} {l : List (Nat × α)} {i : Nat} {a : α}
    (h : lookupAssoc l i = some a) : (i, a) ∈ l := by
  induction l with
  | nil => simp [lookupAssoc] at h
  | cons e rest ih =>
    obtain ⟨j, b⟩ := e
    by_cases hj : j = i
    · subst hj
      simp [lookupAssoc] at h
      simp [h]
    · simp [lookupAssoc, hj] at h
      exact List.mem_cons_of_mem _ (ih h)

theorem filter_ne_of_not_mem {l : List Nat} {i : Nat} (h : i ∉ l) :
    l.filter (fun j => j ≠ i) = l := by
  refine List.filter_eq_self.mpr ?_
  intro a ha
  simp only [ne_eq, decide_eq_true_eq]
  rintro rfl
  exact h ha

namespace Sig

theorem slotUntrackAll_eq (s : SigState) (i : Nat) (ts : List TrackerRef) :
    ∃ tc, slotUntrackAll s i ts = { s with trackerConns := tc } := by
  induction ts generalizing s with
  | nil => exact ⟨s.trackerConns, rfl⟩
  | cons t ts ih =>
    match t with
    | .connTracker tid =>
      obtain ⟨tc, h⟩ := ih { s with trackerConns := updAssoc s.trackerConns tid (fun l => l.erase i) }
      exact ⟨tc, h⟩
    | .weakTracker oid => exact ih s
    | .throwingTracker => exact ih s

theorem slotTrackAll_eq (s : SigState) (i : Nat) (ts : List TrackerRef) :
    ∃ tc, slotTrackAll s i ts = { s with trackerConns := tc } := by
  induction ts generalizing s with
  | nil => exact ⟨s.trackerConns, rfl⟩
  | cons t ts ih =>
    match t with
    | .connTracker tid =>
      obtain ⟨tc, h⟩ := ih { s with trackerConns := updAssoc s.trackerConns tid (fun l => l ++ [i]) }
      exact ⟨tc, h⟩
    | .weakTracker oid => exact ih s
    | .throwingTracker => exact ih s

theorem connDisconnect_eq (s : SigState) (i : Nat) :
    ∃ sl tc, connDisconnect s i = { s with slots := sl, trackerConns := tc } := by
  unfold connDisconnect
  match h : lookupSlot s i with
  | none => exact ⟨s.slots, s.trackerConns, rfl⟩
  | some sl =>
    by_cases hc : sl.connected = false
    · simp only [hc, if_pos]
      exact ⟨s.slots, s.trackerConns, rfl⟩
    · obtain ⟨tc, h2⟩ := slotUntrackAll_eq
        (updateSlot s i fun sl => { sl with connected := false }) i sl.trackers
      refine ⟨updAssoc (updAssoc s.slots i fun sl => { sl with connected := false }) i
        (fun sl => { sl with trackers := [] }), tc, ?_⟩
      simp only [if_neg hc, updateSlot] at h2 ⊢
      simp [h2, updateSlot]

theorem signalDisconnect_eq (s : SigState) (i : Nat) :
    ∃ sl ll tc, signalDisconnect s i = { s with slots := sl, slotList := ll, trackerConns := tc } := by
  unfold signalDisconnect
  match h : lookupSlot s i with
  | none => exact ⟨s.slots, s.slotList, s.trackerConns, rfl⟩
  | some sl =>
    by_cases hm : i ∈ s.slotList
    · simp only [hm, if_pos]
      obtain ⟨sl2, tc, h2⟩ := connDisconnect_eq { s with slotList := s.slotList.filter (fun j => j ≠ i) } i
      exact ⟨sl2, s.slotList.filter (fun j => j ≠ i), tc, by rw [h2]⟩
    · simp only [hm, if_neg]
      exact ⟨s.slots, s.slotList, s.trackerConns, by simp⟩

theorem connect_eq (s : SigState) (a : SlotAction) (trs : List TrackerRef) :
    ∃ tc,
      (connect s a trs).1 =
        { s with
          slots := s.slots ++ [(s.nextId, { connected := true, trackers := trs, action := a })]
          slotList := s.slotList ++ [s.nextId]
          nextId := s.nextId + 1
          trackerConns := tc } := by
  unfold connect
  obtain ⟨tc, h⟩ := slotTrackAll_eq
    { s with
      slots := s.slots ++ [(s.nextId, { connected := true, trackers := trs, action := a })]
      slotList := s.slotList ++ [s.nextId]
      nextId := s.nextId + 1 } s.nextId trs
  exact ⟨tc, by simpa using h⟩

theorem emit_stuck (fuel : Nat) (s : SigState)
    (h : s.blocked = true ∨ s.emitGuard = true) :
    emit fuel s = (s, .ok 0) := by
  have hc : (s.blocked || s.emitGuard) = true := by
    rcases h with h | h <;> simp [h]
  cases fuel <;> simp [emit, sigStep, SigCall.state, SigCall.count, hc]

theorem connDisconnect_log (s : SigState) (i : Nat) :
    (connDisconnect s i).log = s.log := by
  obtain ⟨a, b, h⟩ := connDisconnect_eq s i
  rw [h]

theorem connDisconnect_emitGuard (s : SigState) (i : Nat) :
    (connDisconnect s i).emitGuard = s.emitGuard := by
  obtain ⟨a, b, h⟩ := connDisconnect_eq s i
  rw [h]

theorem signalDisconnect_log (s : SigState) (i : Nat) :
    (signalDisconnect s i).log = s.log := by
  obtain ⟨a, b, c, h⟩ := signalDisconnect_eq s i
  rw [h]

theorem signalDisconnect_emitGuard (s : SigState) (i : Nat) :
    (signalDisconnect s i).emitGuard = s.emitGuard := by
  obtain ⟨a, b, c, h⟩ := signalDisconnect_eq s i
  rw [h]

theorem connect_fst_log (s : SigState) (a : SlotAction) (trs : List TrackerRef) :
    ((connect s a trs).1).log = s.log := by
  obtain ⟨tc, h⟩ := connect_eq s a trs
  rw [h]

theorem connect_fst_emitGuard (s : SigState) (a : SlotAction) (trs : List TrackerRef) :
    ((connect s a trs).1).emitGuard = s.emitGuard := by
  obtain ⟨tc, h⟩ := connect_eq s a trs
  rw [h]

theorem trackerIsValid_congr {s1 s2 : SigState} (h : s1.objects = s2.objects)
    (t : TrackerRef) : trackerIsValid s1 t = trackerIsValid s2 t := by
  cases t <;> simp [trackerIsValid, h]

theorem findInvalidTracker_congr {s1 s2 : SigState} (h : s1.objects = s2.objects)
    (ts : List TrackerRef) : findInvalidTracker s1 ts = findInvalidTracker s2 ts := by
  induction ts with
  | nil => rfl
  | cons t ts ih => simp only [findInvalidTracker, trackerIsValid_congr h t, ih]

theorem slotIsConnected_congr {s1 s2 : SigState} (h : s1.objects = s2.objects)
    (sl : Slot) : slotIsConnected s1 sl = slotIsConnected s2 sl := by
  simp only [slotIsConnected, findInvalidTracker_congr h]

theorem connIsValid_congr {s1 s2 : SigState} (h1 : s1.slots = s2.slots)
    (h2 : s1.objects = s2.objects) (i : Nat) : connIsValid s1 i = connIsValid s2 i := by
  simp only [connIsValid, lookupSlot, h1]
  cases lookupAssoc s2.slots i with
  | none => rfl
  | some sl => exact slotIsConnected_congr h2 sl

theorem connIsValid_set_guard (s : SigState) (b : Bool) :
    connIsValid { s with emitGuard := b } = connIsValid s := by
  funext i
  exact @connIsValid_congr { s with emitGuard := b } s rfl rfl i

theorem emitLoop_cons (f i : Nat) (rest : List Nat) (s : SigState) (acc : Nat) :
    emitLoop (f + 1) (i :: rest) s acc = emitVisit f i rest s acc := rfl

theorem emitVisit_none {s : SigState} {i : Nat} (f : Nat) (rest : List Nat) (acc : Nat)
    (h : lookupSlot s i = none) :
    emitVisit (f + 1) i rest s acc = emitLoop f rest s acc := by
  simp [emitVisit, emitLoop, sigStep, h]

theorem emitVisit_skip {s : SigState} {i : Nat} {sl : Slot} (f : Nat) (rest : List Nat)
    (acc : Nat) (h : lookupSlot s i = some sl) (hc : slotIsConnected s sl = false) :
    emitVisit (f + 1) i rest s acc = emitLoop f rest s acc := by
  simp [emitVisit, emitLoop, sigStep, h, hc]

theorem emitVisit_run {s : SigState} {i : Nat} {sl : Slot} (f : Nat) (rest : List Nat)
    (acc : Nat) (h : lookupSlot s i = some sl) (hc : slotIsConnected s sl = true) :
    emitVisit (f + 1) i rest s acc = emitRun f i rest s acc sl.action := by
  simp [emitVisit, emitRun, sigStep, h, hc]

theorem emit_parts_log (fuel : Nat) :
    (∀ (snap : List Nat) (s : SigState) (acc : Nat), s.emitGuard = true →
      ∃ δ, (emitLoop fuel snap s acc).1.log = s.log ++ δ ∧ δ.Sublist snap ∧
        (emitLoop fuel snap s acc).1.emitGuard = true) ∧
    (∀ (i : Nat) (rest : List Nat) (s : SigState) (acc : Nat), s.emitGuard = true →
      ∃ δ, (emitVisit fuel i rest s acc).1.log = s.log ++ δ ∧ δ.Sublist (i :: rest) ∧
        (emitVisit fuel i rest s acc).1.emitGuard = true) ∧
    (∀ (i : Nat) (rest : List Nat) (s : SigState) (acc : Nat) (a : SlotAction),
      s.emitGuard = true →
      ∃ δ, (emitRun fuel i rest s acc a).1.log = s.log ++ δ ∧ δ.Sublist (i :: rest) ∧
        (emitRun fuel i rest s acc a).1.emitGuard = true) := by
  induction fuel with
  | zero =>
    refine ⟨fun snap s acc h => ?_, fun i rest s acc h => ?_, fun i rest s acc a h => ?_⟩ <;>
      exact ⟨[], by simp [emitLoop, emitVisit, emitRun, sigStep, SigCall.state],
        List.nil_sublist _, by
          simpa [emitLoop, emitVisit, emitRun, sigStep, SigCall.state] using h⟩
  | succ f ih =>
    obtain ⟨ihL, ihV, ihR⟩ := ih
    refine ⟨?_, ?_, ?_⟩
    · intro snap s acc h
      cases snap with
      | nil =>
        exact ⟨[], by simp [emitLoop, sigStep], List.nil_sublist _, by
          simpa [emitLoop, sigStep] using h⟩
      | cons i rest =>
        rw [emitLoop_cons]
        exact ihV i rest s acc h
    · intro i rest s acc h
      cases hls : lookupSlot s i with
      | none =>
        rw [emitVisit_none f rest acc hls]
        obtain ⟨δ, h1, h2, h3⟩ := ihL rest s acc h
        exact ⟨δ, h1, h2.cons i, h3⟩
      | some sl =>
        cases hcon : slotIsConnected s sl with
        | false =>
          rw [emitVisit_skip f rest acc hls hcon]
          obtain ⟨δ, h1, h2, h3⟩ := ihL rest s acc h
          exact ⟨δ, h1, h2.cons i, h3⟩
        | true =>
          rw [emitVisit_run f rest acc hls hcon]
          exact ihR i rest s acc sl.action h
    · intro i rest s acc a h
      cases a with
      | ret =>
        rw [show emitRun (f + 1) i rest s acc .ret =
          emitLoop f rest { s with log := s.log ++ [i] } (acc + 1) from rfl]
        obtain ⟨δ, h1, h2, h3⟩ := ihL rest { s with log := s.log ++ [i] } (acc + 1) h
        exact ⟨i :: δ, by simpa using h1, h2.cons₂ i, h3⟩
      | raise e =>
        cases e with
        | badSlot =>
          rw [show emitRun (f + 1) i rest s acc (.raise .badSlot) =
            emitLoop f rest (signalDisconnect s i) acc from rfl]
          obtain ⟨δ, h1, h2, h3⟩ := ihL rest (signalDisconnect s i) acc
            (by rw [signalDisconnect_emitGuard]; exact h)
          refine ⟨δ, ?_, h2.cons i, h3⟩
          rw [h1, signalDisconnect_log]
        | badWeak =>
          rw [show emitRun (f + 1) i rest s acc (.raise .badWeak) =
            emitLoop f rest (signalDisconnect s i) acc from rfl]
          obtain ⟨δ, h1, h2, h3⟩ := ihL rest (signalDisconnect s i) acc
            (by rw [signalDisconnect_emitGuard]; exact h)
          refine ⟨δ, ?_, h2.cons i, h3⟩
          rw [h1, signalDisconnect_log]
        | other =>
          rw [show emitRun (f + 1) i rest s acc (.raise .other) = (s, .error ()) from rfl]
          exact ⟨[], by simp, List.nil_sublist _, h⟩
      | connectNew a2 =>
        rw [show emitRun (f + 1) i rest s acc (.connectNew a2) =
          emitLoop f rest
            { (connect s a2 []).1 with log := ((connect s a2 []).1).log ++ [i] }
            (acc + 1) from rfl]
        obtain ⟨δ, h1, h2, h3⟩ := ihL rest
          { (connect s a2 []).1 with log := ((connect s a2 []).1).log ++ [i] } (acc + 1)
          (by simp [connect_fst_emitGuard, h])
        refine ⟨i :: δ, ?_, h2.cons₂ i, h3⟩
        rw [h1]
        simp [connect_fst_log]
      | disconnectId j =>
        rw [show emitRun (f + 1) i rest s acc (.disconnectId j) =
          emitLoop f rest
            { signalDisconnect s j with log := (signalDisconnect s j).log ++ [i] }
            (acc + 1) from rfl]
        obtain ⟨δ, h1, h2, h3⟩ := ihL rest
          { signalDisconnect s j with log := (signalDisconnect s j).log ++ [i] } (acc + 1)
          (by simp [signalDisconnect_emitGuard, h])
        refine ⟨i :: δ, ?_, h2.cons₂ i, h3⟩
        rw [h1]
        simp [signalDisconnect_log]
      | reemit =>
        rw [show emitRun (f + 1) i rest s acc .reemit =
          (match emit f s with
            | (s1, .ok _) => emitLoop f rest { s1 with log := s1.log ++ [i] } (acc + 1)
            | (s1, .error e) => (s1, .error e)) from rfl]
        rw [emit_stuck f s (Or.inr h)]
        obtain ⟨δ, h1, h2, h3⟩ := ihL rest { s with log := s.log ++ [i] } (acc + 1) h
        exact ⟨i :: δ, by simpa using h1, h2.cons₂ i, h3⟩

theorem emit_log (fuel : Nat) (s : SigState) :
    ∃ δ, (emit fuel s).1.log = s.log ++ δ ∧ δ.Sublist (emitSnapshot s) := by
  by_cases hb : s.blocked = true ∨ s.emitGuard = true
  · rw [emit_stuck fuel s hb]
    exact ⟨[], by simp, List.nil_sublist _⟩
  · push_neg at hb
    have hb1 : s.blocked = false := by
      cases h : s.blocked
      · rfl
      · exact absurd h hb.1
    have hb2 : s.emitGuard = false := by
      cases h : s.emitGuard
      · rfl
      · exact absurd h hb.2
    have hcond : ¬((s.blocked || s.emitGuard) = true) := by simp [hb1, hb2]
    cases fuel with
    | zero =>
      rw [show emit 0 s = (s, .ok 0) from rfl]
      exact ⟨[], by simp, List.nil_sublist _⟩
    | succ f =>
      rw [emit, sigStep, if_neg hcond]
      have hmain := (emit_parts_log f).1
        (List.filter (connIsValid { s with emitGuard := true }) s.slotList)
        { s with
          emitGuard := true
          slotList := List.filter (connIsValid { s with emitGuard := true }) s.slotList }
        0 rfl
      obtain ⟨δ, h1, h2, _⟩ := hmain
      refine ⟨δ, by simpa using h1, ?_⟩
      rw [connIsValid_set_guard] at h2
      exact h2

theorem lookupSlot_updateSlot_self (s : SigState) (i : Nat) (f : Slot → Slot) :
    lookupSlot (updateSlot s i f) i = (lookupSlot s i).map f := by
  simp [lookupSlot, updateSlot, lookupAssoc_updAssoc_self]

theorem lookupSlot_updateSlot_ne (s : SigState) (i j : Nat) (f : Slot → Slot)
    (h : j ≠ i) : lookupSlot (updateSlot s j f) i = lookupSlot s i := by
  simp [lookupSlot, updateSlot, lookupAssoc_updAssoc_ne _ _ _ _ h]

theorem lookupSlot_slotUntrackAll (s : SigState) (i j : Nat) (ts : List TrackerRef) :
    lookupSlot (slotUntrackAll s j ts) i = lookupSlot s i := by
  obtain ⟨tc, h⟩ := slotUntrackAll_eq s j ts
  rw [h]
  rfl

theorem slotFlagOff_connIsValid {s : SigState} {i : Nat} (h : slotFlagOff s i) :
    connIsValid s i = false := by
  rw [connIsValid]
  cases hls : lookupSlot s i with
  | none => rfl
  | some sl => simp [slotIsConnected, h sl hls]

theorem connDisconnect_of_none {s : SigState} {i : Nat} (hls : lookupSlot s i = none) :
    connDisconnect s i = s := by
  rw [connDisconnect, hls]

theorem connDisconnect_of_off {s : SigState} {i : Nat} {sl : Slot}
    (hls : lookupSlot s i = some sl) (hc : sl.connected = false) :
    connDisconnect s i = s := by
  rw [connDisconnect, hls]
  simp [hc]

theorem connDisconnect_of_on {s : SigState} {i : Nat} {sl : Slot}
    (hls : lookupSlot s i = some sl) (hc : sl.connected = true) :
    connDisconnect s i =
      updateSlot (slotUntrackAll (updateSlot s i fun sl => { sl with connected := false })
        i sl.trackers) i (fun sl => { sl with trackers := [] }) := by
  rw [connDisconnect, hls]
  simp [hc]

theorem connDisconnect_flagOff (s : SigState) (i : Nat) :
    slotFlagOff (connDisconnect s i) i := by
  cases hls : lookupSlot s i with
  | none =>
    intro sl2 h2
    rw [connDisconnect_of_none hls, hls] at h2
    cases h2
  | some sl =>
    cases hc : sl.connected with
    | false =>
      intro sl2 h2
      rw [connDisconnect_of_off hls hc, hls] at h2
      obtain rfl := Option.some.inj h2
      exact hc
    | true =>
      intro sl2 h2
      rw [connDisconnect_of_on hls hc, lookupSlot_updateSlot_self,
        lookupSlot_slotUntrackAll, lookupSlot_updateSlot_self, hls] at h2
      simp only [Option.map_some'] at h2
      obtain rfl := Option.some.inj h2
      rfl

theorem connDisconnect_flagOff_preserved {s : SigState} {i : Nat}
    (h : slotFlagOff s i) (j : Nat) : slotFlagOff (connDisconnect s j) i := by
  by_cases hij : j = i
  · subst hij
    cases hls : lookupSlot s j with
    | none => rw [connDisconnect_of_none hls]; exact h
    | some sl =>
      have hc : sl.connected = false := h sl hls
      rw [connDisconnect_of_off hls hc]
      exact h
  · cases hls : lookupSlot s j with
    | none => rw [connDisconnect_of_none hls]; exact h
    | some sl =>
      cases hc : sl.connected with
      | false => rw [connDisconnect_of_off hls hc]; exact h
      | true =>
        rw [connDisconnect_of_on hls hc]
        intro sl2 h2
        rw [lookupSlot_updateSlot_ne _ _ _ _ hij, lookupSlot_slotUntrackAll,
          lookupSlot_updateSlot_ne _ _ _ _ hij] at h2
        exact h sl2 h2

theorem connDisconnect_idem (s : SigState) (i : Nat) :
    connDisconnect (connDisconnect s i) i = connDisconnect s i := by
  cases hls : lookupSlot (connDisconnect s i) i with
  | none => exact connDisconnect_of_none hls
  | some sl2 => exact connDisconnect_of_off hls (connDisconnect_flagOff s i sl2 hls)

theorem connDisconnect_slotList (s : SigState) (i : Nat) :
    (connDisconnect s i).slotList = s.slotList := by
  obtain ⟨a, b, h⟩ := connDisconnect_eq s i
  rw [h]

theorem signalDisconnect_of_none {s : SigState} {i : Nat} (hls : lookupSlot s i = none) :
    signalDisconnect s i = s := by
  rw [signalDisconnect, hls]

theorem signalDisconnect_of_absent {s : SigState} {i : Nat} {sl : Slot}
    (hls : lookupSlot s i = some sl) (hm : i ∉ s.slotList) :
    signalDisconnect s i = s := by
  rw [signalDisconnect, hls]
  simp [hm]

theorem signalDisconnect_of_present {s : SigState} {i : Nat} {sl : Slot}
    (hls : lookupSlot s i = some sl) (hm : i ∈ s.slotList) :
    signalDisconnect s i =
      connDisconnect { s with slotList := s.slotList.filter (fun j => j ≠ i) } i := by
  rw [signalDisconnect, hls]
  simp [hm]

theorem signalDisconnect_idem (s : SigState) (i : Nat) :
    signalDisconnect (signalDisconnect s i) i = signalDisconnect s i := by
  cases hls : lookupSlot s i with
  | none =>
    rw [signalDisconnect_of_none hls, signalDisconnect_of_none hls]
  | some sl =>
    by_cases hm : i ∈ s.slotList
    · rw [signalDisconnect_of_present hls hm]
      have hnm : i ∉ (connDisconnect { s with slotList := s.slotList.filter (fun j => j ≠ i) } i).slotList := by
        rw [connDisconnect_slotList]
        simp
      cases hls2 : lookupSlot (connDisconnect { s with slotList := s.slotList.filter (fun j => j ≠ i) } i) i with
      | none => exact signalDisconnect_of_none hls2
      | some sl2 => exact signalDisconnect_of_absent hls2 hnm
    · rw [signalDisconnect_of_absent hls hm, signalDisconnect_of_absent hls hm]

theorem slotFlagOff_congr {s1 s2 : SigState} {i : Nat} (h : s1.slots = s2.slots)
    (hf : slotFlagOff s1 i) : slotFlagOff s2 i := by
  intro sl hsl
  refine hf sl ?_
  rw [lookupSlot] at hsl ⊢
  rw [h]
  exact hsl

theorem trackedOf_trackerUntrack_self (s : SigState) (tid j : Nat) :
    trackedOf (trackerUntrack s tid j) tid = (trackedOf s tid).erase j := by
  simp only [trackedOf, trackerUntrack, lookupAssoc_updAssoc_self]
  cases lookupAssoc s.trackerConns tid <;> simp

theorem trackedOf_trackerUntrack_ne (s : SigState) (tid j tid2 : Nat) (h : tid ≠ tid2) :
    trackedOf (trackerUntrack s tid j) tid2 = trackedOf s tid2 := by
  simp only [trackedOf, trackerUntrack, lookupAssoc_updAssoc_ne _ _ _ _ h]

theorem trackedOf_updateSlot (s : SigState) (i : Nat) (f : Slot → Slot) (tid : Nat) :
    trackedOf (updateSlot s i f) tid = trackedOf s tid := rfl

theorem slotUntrackAll_trackedOf_sublist {j : Nat} (ts : List TrackerRef) (tid : Nat) :
    ∀ s : SigState, (trackedOf (slotUntrackAll s j ts) tid).Sublist (trackedOf s tid) := by
  induction ts with
  | nil => exact fun s => List.Sublist.refl _
  | cons t ts ih =>
    intro s
    match t with
    | .connTracker t2 =>
      refine (ih (trackerUntrack s t2 j)).trans ?_
      by_cases h : t2 = tid
      · subst h
        rw [trackedOf_trackerUntrack_self]
        exact List.erase_sublist _ _
      · rw [trackedOf_trackerUntrack_ne _ _ _ _ h]
    | .weakTracker o => exact ih s
    | .throwingTracker => exact ih s

theorem slotUntrackAll_trackedOf_mem {j : Nat} (ts : List TrackerRef) (tid : Nat) :
    ∀ (s : SigState) (x : Nat), x ≠ j → x ∈ trackedOf s tid →
      x ∈ trackedOf (slotUntrackAll s j ts) tid := by
  induction ts with
  | nil => exact fun s x _ hm => hm
  | cons t ts ih =>
    intro s x hx hm
    match t with
    | .connTracker t2 =>
      refine ih (trackerUntrack s t2 j) x hx ?_
      by_cases h : t2 = tid
      · subst h
        rw [trackedOf_trackerUntrack_self]
        exact (List.mem_erase_of_ne hx).mpr hm
      · rw [trackedOf_trackerUntrack_ne _ _ _ _ h]
        exact hm
    | .weakTracker o => exact ih s x hx hm
    | .throwingTracker => exact ih s x hx hm

theorem connDisconnect_trackedOf_sublist (s : SigState) (c tid : Nat) :
    (trackedOf (connDisconnect s c) tid).Sublist (trackedOf s tid) := by
  cases hls : lookupSlot s c with
  | none => rw [connDisconnect_of_none hls]
  | some sl =>
    cases hc : sl.connected with
    | false => rw [connDisconnect_of_off hls hc]
    | true =>
      rw [connDisconnect_of_on hls hc, trackedOf_updateSlot]
      exact slotUntrackAll_trackedOf_sublist sl.trackers tid _

theorem connDisconnect_trackedOf_mem (s : SigState) (c tid x : Nat) (hx : x ≠ c)
    (hm : x ∈ trackedOf s tid) : x ∈ trackedOf (connDisconnect s c) tid := by
  cases hls : lookupSlot s c with
  | none => rw [connDisconnect_of_none hls]; exact hm
  | some sl =>
    cases hc : sl.connected with
    | false => rw [connDisconnect_of_off hls hc]; exact hm
    | true =>
      rw [connDisconnect_of_on hls hc, trackedOf_updateSlot]
      exact slotUntrackAll_trackedOf_mem sl.trackers tid _ x hx hm

theorem trackerClearLoop_succ_none {s : SigState} {tid : Nat} (f : Nat)
    (hl : lookupAssoc s.trackerConns tid = none) :
    trackerClearLoop (f + 1) s tid = s := by
  rw [trackerClearLoop, hl]

theorem trackerClearLoop_succ_empty {s : SigState} {tid : Nat} {l : List Nat} (f : Nat)
    (hl : lookupAssoc s.trackerConns tid = some l) (hgl : l.getLast? = none) :
    trackerClearLoop (f + 1) s tid = s := by
  rw [trackerClearLoop, hl]
  simp only [hgl]

theorem trackerClearLoop_succ_step {s : SigState} {tid : Nat} {l : List Nat} {c : Nat}
    (f : Nat) (hl : lookupAssoc s.trackerConns tid = some l) (hgl : l.getLast? = some c) :
    trackerClearLoop (f + 1) s tid =
      trackerClearLoop f
        (connDisconnect
          { s with trackerConns := updAssoc s.trackerConns tid (fun l => l.dropLast) } c)
        tid := by
  rw [trackerClearLoop, hl]
  simp only [hgl]

theorem trackerClearLoop_flagOff :
    ∀ (fuel : Nat) (s : SigState) (tid : Nat), (trackedOf s tid).length < fuel →
      ∀ i, (i ∈ trackedOf s tid ∨ slotFlagOff s i) →
        slotFlagOff (trackerClearLoop fuel s tid) i := by
  intro fuel
  induction fuel with
  | zero => exact fun s tid h => absurd h (Nat.not_lt_zero _)
  | succ f ih =>
    intro s tid hlen i hi
    cases hl : lookupAssoc s.trackerConns tid with
    | none =>
      rw [trackerClearLoop_succ_none f hl]
      rcases hi with hi | hi
      · simp [trackedOf, hl] at hi
      · exact hi
    | some l =>
      cases hgl : l.getLast? with
      | none =>
        rw [trackerClearLoop_succ_empty f hl hgl]
        rcases hi with hi | hi
        · rw [List.getLast?_eq_none_iff] at hgl
          subst hgl
          simp [trackedOf, hl] at hi
        · exact hi
      | some c =>
        rw [trackerClearLoop_succ_step f hl hgl]
        have hlnil : l ≠ [] := by
          intro hnil
          subst hnil
          cases hgl
        have hlast : l.getLast hlnil = c := by
          rw [List.getLast?_eq_getLast _ hlnil] at hgl
          exact Option.some.inj hgl
        have hsplit : l.dropLast ++ [c] = l := by
          rw [← hlast]
          exact List.dropLast_append_getLast hlnil
        have hS : trackedOf s tid = l := by simp [trackedOf, hl]
        have hs1 : trackedOf
            { s with trackerConns := updAssoc s.trackerConns tid (fun l => l.dropLast) } tid =
            l.dropLast := by
          simp [trackedOf, lookupAssoc_updAssoc_self, hl]
        have hlen2 :
            (trackedOf (connDisconnect
              { s with trackerConns := updAssoc s.trackerConns tid (fun l => l.dropLast) }
              c) tid).length < f := by
          have h1 := (connDisconnect_trackedOf_sublist
            { s with trackerConns := updAssoc s.trackerConns tid (fun l => l.dropLast) }
            c tid).length_le
          rw [hs1] at h1
          have h2 : l.dropLast.length + 1 = l.length := by
            conv => rhs; rw [← hsplit]
            simp
          rw [hS] at hlen
          omega
        refine ih (connDisconnect
          { s with trackerConns := updAssoc s.trackerConns tid (fun l => l.dropLast) } c)
          tid hlen2 i ?_
        rcases hi with hi | hi
        · by_cases hic : i = c
          · subst hic
            exact Or.inr (connDisconnect_flagOff _ i)
          · refine Or.inl (connDisconnect_trackedOf_mem _ _ _ _ hic ?_)
            rw [hs1]
            rw [hS] at hi
            rw [← hsplit] at hi
            rcases List.mem_append.mp hi with h | h
            · exact h
            · simp at h
              exact absurd h hic
        · refine Or.inr (connDisconnect_flagOff_preserved ?_ c)
          exact slotFlagOff_congr rfl hi

theorem trackerDestroy_invalidates (s : SigState) (tid : Nat) :
    ∀ i ∈ trackedOf s tid, connIsValid (trackerDestroy s tid) i = false := by
  intro i hi
  have hn : (match lookupAssoc s.trackerConns tid with
      | none => 0
      | some l => l.length) = (trackedOf s tid).length := by
    cases h : lookupAssoc s.trackerConns tid <;> simp [trackedOf, h]
  have hflag := trackerClearLoop_flagOff ((trackedOf s tid).length + 1) s tid
    (Nat.lt_succ_self _) i (Or.inl hi)
  rw [trackerDestroy, hn]
  exact slotFlagOff_connIsValid (slotFlagOff_congr rfl hflag)

theorem mem_updAssoc {α : Type} {l : List (Nat × α)} {i : Nat} {f : α → α} {e : Nat × α}
    (he : e ∈ updAssoc l i f) : e ∈ l ∨ ∃ e2, e2 ∈ l ∧ e = (e2.1, f e2.2) := by
  induction l with
  | nil => cases he
  | cons x rest ih =>
    obtain ⟨j, a⟩ := x
    by_cases hj : j = i
    · simp only [updAssoc, if_pos hj, List.mem_cons] at he
      rcases he with rfl | hmem
      · exact Or.inr ⟨(j, a), List.mem_cons_self _ _, rfl⟩
      · exact Or.inl (List.mem_cons_of_mem _ hmem)
    · simp only [updAssoc, if_neg hj, List.mem_cons] at he
      rcases he with rfl | hmem
      · exact Or.inl (List.mem_cons_self _ _)
      · rcases ih hmem with h | ⟨e2, he2, heq⟩
        · exact Or.inl (List.mem_cons_of_mem _ h)
        · exact Or.inr ⟨e2, List.mem_cons_of_mem _ he2, heq⟩

theorem benignActions_updateSlot {s : SigState} (hb : benignActions s) (i : Nat)
    (f : Slot → Slot) (hf : ∀ sl, (f sl).action = sl.action) :
    benignActions (updateSlot s i f) := by
  intro e he
  rcases mem_updAssoc he with h | ⟨e2, he2, rfl⟩
  · exact hb e h
  · simpa [hf e2.2] using hb e2 he2

theorem benignActions_slotUntrackAll {s : SigState} (hb : benignActions s)
    (i : Nat) (ts : List TrackerRef) : benignActions (slotUntrackAll s i ts) := by
  obtain ⟨tc, h⟩ := slotUntrackAll_eq s i ts
  rw [h]
  exact hb

theorem benignActions_congr {s1 s2 : SigState} (h : s1.slots = s2.slots)
    (hb : benignActions s1) : benignActions s2 := by
  intro e he
  exact hb e (by rw [h]; exact he)

theorem benignActions_connDisconnect {s : SigState} (hb : benignActions s) (i : Nat) :
    benignActions (connDisconnect s i) := by
  cases hls : lookupSlot s i with
  | none => rw [connDisconnect_of_none hls]; exact hb
  | some sl =>
    cases hc : sl.connected with
    | false => rw [connDisconnect_of_off hls hc]; exact hb
    | true =>
      rw [connDisconnect_of_on hls hc]
      exact benignActions_updateSlot
        (benignActions_slotUntrackAll
          (benignActions_updateSlot hb i (fun sl => { sl with connected := false })
            (fun sl => rfl)) i sl.trackers)
        i (fun sl => { sl with trackers := [] }) (fun sl => rfl)

theorem benignActions_signalDisconnect {s : SigState} (hb : benignActions s) (i : Nat) :
    benignActions (signalDisconnect s i) := by
  cases hls : lookupSlot s i with
  | none => rw [signalDisconnect_of_none hls]; exact hb
  | some sl =>
    by_cases hm : i ∈ s.slotList
    · rw [signalDisconnect_of_present hls hm]
      exact benignActions_connDisconnect
        (@benignActions_congr s { s with slotList := s.slotList.filter (fun j => j ≠ i) }
          rfl hb) i
    · rw [signalDisconnect_of_absent hls hm]
      exact hb

theorem emit_benign_ok (fuel : Nat) :
    (∀ (s : SigState), benignActions s → ∃ n, (emit fuel s).2 = .ok n) ∧
    (∀ (snap : List Nat) (s : SigState) (acc : Nat), benignActions s →
      ∃ n, (emitLoop fuel snap s acc).2 = .ok n) ∧
    (∀ (i : Nat) (rest : List Nat) (s : SigState) (acc : Nat), benignActions s →
      ∃ n, (emitVisit fuel i rest s acc).2 = .ok n) ∧
    (∀ (i : Nat) (rest : List Nat) (s : SigState) (acc : Nat) (a : SlotAction),
      benignActions s →
      (a = .ret ∨ a = .raise .badSlot ∨ a = .raise .badWeak) →
      ∃ n, (emitRun fuel i rest s acc a).2 = .ok n) := by
  induction fuel with
  | zero => exact ⟨fun s _ => ⟨0, rfl⟩, fun snap s acc _ => ⟨acc, rfl⟩,
      fun i rest s acc _ => ⟨acc, rfl⟩, fun i rest s acc a _ _ => ⟨acc, rfl⟩⟩
  | succ f ih =>
    obtain ⟨ihE, ihL, ihV, ihR⟩ := ih
    refine ⟨?_, ?_, ?_, ?_⟩
    · intro s hb
      by_cases hcond : (s.blocked || s.emitGuard) = true
      · rw [emit_stuck (f + 1) s (by simpa using hcond)]
        exact ⟨0, rfl⟩
      · rw [emit, sigStep, if_neg hcond]
        obtain ⟨n, hn⟩ := ihL
          (List.filter (connIsValid { s with emitGuard := true }) s.slotList)
          { s with
            emitGuard := true
            slotList := List.filter (connIsValid { s with emitGuard := true }) s.slotList }
          0 hb
        exact ⟨n, by simpa using hn⟩
    · intro snap s acc hb
      cases snap with
      | nil => exact ⟨acc, rfl⟩
      | cons i rest =>
        rw [emitLoop_cons]
        exact ihV i rest s acc hb
    · intro i rest s acc hb
      cases hls : lookupSlot s i with
      | none =>
        rw [emitVisit_none f rest acc hls]
        exact ihL rest s acc hb
      | some sl =>
        cases hcon : slotIsConnected s sl with
        | false =>
          rw [emitVisit_skip f rest acc hls hcon]
          exact ihL rest s acc hb
        | true =>
          rw [emitVisit_run f rest acc hls hcon]
          exact ihR i rest s acc sl.action hb (hb (i, sl) (lookupAssoc_mem hls))
    · intro i rest s acc a hb ha
      rcases ha with rfl | rfl | rfl
      · rw [show emitRun (f + 1) i rest s acc .ret =
          emitLoop f rest { s with log := s.log ++ [i] } (acc + 1) from rfl]
        exact ihL rest { s with log := s.log ++ [i] } (acc + 1) hb
      · rw [show emitRun (f + 1) i rest s acc (.raise .badSlot) =
          emitLoop f rest (signalDisconnect s i) acc from rfl]
        exact ihL rest (signalDisconnect s i) acc (benignActions_signalDisconnect hb i)
      · rw [show emitRun (f + 1) i rest s acc (.raise .badWeak) =
          emitLoop f rest (signalDisconnect s i) acc from rfl]
        exact ihL rest (signalDisconnect s i) acc (benignActions_signalDisconnect hb i)

theorem findInvalidTracker_ok_false (s : SigState) :
    ∀ ts : List TrackerRef,
      findInvalidTracker s ts = .ok false ↔ ∀ t ∈ ts, trackerIsValid s t = .ok true := by
  intro ts
  induction ts with
  | nil => simp [findInvalidTracker]
  | cons t ts ih =>
    rw [findInvalidTracker]
    cases h : trackerIsValid s t with
    | error e =>
      constructor
      · intro hc
        cases hc
      · intro hall
        have h2 := hall t (List.mem_cons_self t ts)
        rw [h] at h2
        cases h2
    | ok b =>
      cases b with
      | false =>
        constructor
        · intro hc
          cases hc
        · intro hall
          have h2 := hall t (List.mem_cons_self t ts)
          rw [h] at h2
          cases h2
      | true =>
        rw [ih]
        constructor
        · intro hall t2 ht2
          rcases List.mem_cons.mp ht2 with rfl | hm
          · exact h
          · exact hall t2 hm
        · intro hall t2 ht2
          exact hall t2 (List.mem_cons_of_mem _ ht2)

theorem slotIsConnected_true_iff (s : SigState) (sl : Slot) :
    slotIsConnected s sl = true ↔
      (sl.connected = true ∧ ∀ t ∈ sl.trackers, trackerIsValid s t = .ok true) := by
  rw [slotIsConnected]
  cases hc : sl.connected with
  | false => simp
  | true =>
    simp only [Bool.not_true, Bool.false_eq_true, if_false, true_and]
    cases hf : findInvalidTracker s sl.trackers with
    | error e =>
      constructor
      · intro h
        cases h
      · intro hall
        rw [(findInvalidTracker_ok_false s sl.trackers).mpr hall] at hf
        cases hf
    | ok b =>
      cases b with
      | false =>
        constructor
        · intro _
          exact (findInvalidTracker_ok_false s sl.trackers).mp hf
        · intro _
          rfl
      | true =>
        constructor
        · intro h
          cases h
        · intro hall
          rw [(findInvalidTracker_ok_false s sl.trackers).mpr hall] at hf
          cases hf

theorem slotIsConnected_of_error (s : SigState) (sl : Slot)
    (h : findInvalidTracker s sl.trackers = .error ()) :
    slotIsConnected s sl = false := by
  rw [slotIsConnected]
  cases hc : sl.connected with
  | false => rfl
  | true =>
    simp only [Bool.not_true, Bool.false_eq_true, if_false]
    rw [h]

theorem signalDisconnect_after_connDisconnect {s : SigState} {i : Nat} {sl : Slot}
    (hls : lookupSlot s i = some sl) :
    signalDisconnect (connDisconnect s i) i =
      { connDisconnect s i with
        slotList := (connDisconnect s i).slotList.filter (fun j => j ≠ i) } := by
  have hflag := connDisconnect_flagOff s i
  cases hls2 : lookupSlot (connDisconnect s i) i with
  | none =>
    cases hc : sl.connected with
    | false => rw [connDisconnect_of_off hls hc, hls] at hls2; cases hls2
    | true =>
      rw [connDisconnect_of_on hls hc, lookupSlot_updateSlot_self,
        lookupSlot_slotUntrackAll, lookupSlot_updateSlot_self, hls] at hls2
      simp at hls2
  | some sl2 =>
    have hc2 : sl2.connected = false := hflag sl2 hls2
    by_cases hm : i ∈ (connDisconnect s i).slotList
    · rw [signalDisconnect_of_present hls2 hm]
      rw [connDisconnect_of_off (s := { connDisconnect s i with
          slotList := (connDisconnect s i).slotList.filter (fun j => j ≠ i) }) hls2 hc2]
    · rw [signalDisconnect_of_absent hls2 hm]
      rw [filter_ne_of_not_mem hm]

end Sig

namespace Prp

theorem stackEq_refl (s : PState) : stackEq s s :=
  ⟨fun _ => rfl, fun _ => rfl⟩

theorem stackEq_trans {a b c : PState} (h1 : stackEq a b) (h2 : stackEq b c) :
    stackEq a c :=
  ⟨fun v => (h1.1 v).trans (h2.1 v), fun p => (h1.2 p).trans (h2.2 p)⟩

theorem stackEq_of_eq {s1 s2 : PState} (hv : s1.provs = s2.provs)
    (hp : s1.props = s2.props) : stackEq s1 s2 := by
  constructor
  · intro v
    rw [wbOf, wbOf, lookupProv, lookupProv, hv]
  · intro p
    rw [vpOf, vpOf, lookupProp, lookupProp, hp]

theorem stackEq_updateProv (s : PState) (i : Nat) (f : Provider → Provider)
    (h : ∀ p, (f p).writeBehavior = p.writeBehavior) :
    stackEq (updateProv s i f) s := by
  constructor
  · intro v
    show (lookupAssoc (updAssoc s.provs i f) v).map (fun p => p.writeBehavior) =
      (lookupAssoc s.provs v).map (fun p => p.writeBehavior)
    by_cases hvi : v = i
    · subst hvi
      rw [lookupAssoc_updAssoc_self]
      cases lookupAssoc s.provs v with
      | none => rfl
      | some p => simp [h]
    · rw [lookupAssoc_updAssoc_ne _ _ _ _ (fun he => hvi he.symm)]
  · intro p
    rfl

theorem stackEq_updateProp (s : PState) (i : Nat) (f : PropCore → PropCore)
    (h : ∀ pc, (f pc).vp = pc.vp) :
    stackEq (updateProp s i f) s := by
  constructor
  · intro v
    rfl
  · intro p
    show (lookupAssoc (updAssoc s.props i f) p).map (fun pc => pc.vp) =
      (lookupAssoc s.props p).map (fun pc => pc.vp)
    by_cases hpi : p = i
    · subst hpi
      rw [lookupAssoc_updAssoc_self]
      cases lookupAssoc s.props p with
      | none => rfl
      | some pc => simp [h]
    · rw [lookupAssoc_updAssoc_ne _ _ _ _ (fun he => hpi he.symm)]

theorem stackEq_trackProperty (s : PState) (srcPid : Nat) :
    stackEq (trackProperty s srcPid) s := by
  rw [trackProperty]
  cases hc : s.scopeCurrent with
  | none => cases s.scopeTargetSignal <;> exact stackEq_refl s
  | some cur =>
    cases ht : s.scopeTargetSignal with
    | none => exact stackEq_refl s
    | some tgt =>
      exact stackEq_trans (stackEq_updateProv _ _ _ (fun p => rfl))
        (stackEq_trans (stackEq_updateProp _ _ _ (fun pc => rfl))
          (stackEq_trans (stackEq_updateProv _ _ _ (fun p => rfl))
            (stackEq_trans (stackEq_updateProp _ _ _ (fun pc => rfl))
              (stackEq_trans (stackEq_updateProp _ _ _ (fun pc => rfl))
                (stackEq_of_eq rfl rfl)))))

theorem stackEq_foldl {β : Type} (g : PState → β → PState)
    (hg : ∀ st x, stackEq (g st x) st) :
    ∀ (l : List β) (s : PState), stackEq (l.foldl g s) s := by
  intro l
  induction l with
  | nil => intro s; exact stackEq_refl s
  | cons x xs ih => intro s; exact stackEq_trans (ih (g s x)) (hg s x)

theorem stackEq_clearTrackables (s : PState) (vid : Nat) :
    stackEq (clearTrackables s vid) s := by
  rw [clearTrackables]
  cases hp : lookupProv s vid with
  | none => exact stackEq_refl s
  | some p =>
    exact stackEq_trans (stackEq_updateProv _ _ _ (fun p => rfl))
      (stackEq_foldl (fun st sid => updateCSlot st sid (fun c => { c with connected := false }))
        (fun st sid => stackEq_of_eq rfl rfl) _ s)

theorem updateProv_scopeCurrent (s : PState) (i : Nat) (f : Provider → Provider) :
    (updateProv s i f).scopeCurrent = s.scopeCurrent := rfl

theorem stackEq_chStep : ∀ (f : Nat) (c : ChCall), stackEq (chStep f c) c.state := by
  intro f
  induction f with
  | zero => intro c; exact stackEq_refl _
  | succ f ih =>
    intro c
    cases c with
    | callSig pid s =>
      show stackEq (chStep (f + 1) (.callSig pid s)) s
      cases hp : lookupProp s pid with
      | none =>
        simp only [chStep, hp]
        exact stackEq_refl s
      | some pc =>
        simp only [chStep, hp]
        cases hb1 : pc.changed.blocked with
        | true => exact stackEq_refl s
        | false =>
          cases hb2 : pc.changed.emitGuard with
          | true => exact stackEq_refl s
          | false =>
            exact stackEq_trans (stackEq_updateProp _ _ _ (fun pc => rfl))
              (stackEq_trans (ih _)
                (stackEq_trans (stackEq_updateProp _ _ _ (fun pc => rfl))
                  (stackEq_updateProp _ _ _ (fun pc => rfl))))
    | callLoop snap s =>
      cases snap with
      | nil => exact stackEq_refl s
      | cons sid rest =>
        show stackEq (chStep (f + 1) (.callLoop (sid :: rest) s)) s
        cases hc : lookupCSlot s sid with
        | none =>
          simp only [chStep, hc]
          exact ih (.callLoop rest s)
        | some cs =>
          simp only [chStep, hc]
          cases hcon : cs.connected with
          | false => exact ih (.callLoop rest s)
          | true =>
            cases hk : cs.kind with
            | counter cid =>
              exact stackEq_trans (ih _) (stackEq_of_eq rfl rfl)
            | forward tgt =>
              exact stackEq_trans (ih _) (ih (.callSig tgt s))

theorem stackEq_evalStep : ∀ (f : Nat) (c : EvCall), stackEq (evalStep f c).1 c.state := by
  intro f
  induction f with
  | zero => intro c; exact stackEq_refl _
  | succ f ih =>
    intro c
    cases c with
    | callValue vid s =>
      show stackEq (evalStep (f + 1) (.callValue vid s)).1 s
      cases hp : lookupProv s vid with
      | none =>
        simp only [evalStep, hp]
        exact stackEq_refl s
      | some p =>
        cases hg : p.guardEvaluate with
        | true =>
          simp only [evalStep, hp, hg]
          exact stackEq_refl s
        | false =>
          cases hcur : s.scopeCurrent with
          | none =>
            cases himpl : p.impl with
            | stored v =>
              simp only [evalStep, hp, hg, hcur, himpl, updateProv_scopeCurrent,
                Option.isSome]
              exact stackEq_trans (stackEq_updateProv _ _ _ (fun p => rfl))
                (stackEq_updateProv _ _ _ (fun p => rfl))
            | binding e =>
              simp only [evalStep, hp, hg, hcur, himpl, updateProv_scopeCurrent,
                Option.isSome]
              exact stackEq_trans (stackEq_updateProv _ _ _ (fun p => rfl))
                (stackEq_trans (stackEq_of_eq rfl rfl)
                  (stackEq_trans (ih (.callExpr e _))
                    (stackEq_trans (stackEq_of_eq rfl rfl)
                      (stackEq_updateProv _ _ _ (fun p => rfl)))))
          | some cur =>
            cases htg : p.target with
            | none =>
              cases himpl : p.impl with
              | stored v =>
                simp only [evalStep, hp, hg, hcur, htg, himpl, updateProv_scopeCurrent,
                  Option.isSome]
                exact stackEq_trans (stackEq_updateProv _ _ _ (fun p => rfl))
                  (stackEq_updateProv _ _ _ (fun p => rfl))
              | binding e =>
                simp only [evalStep, hp, hg, hcur, htg, himpl, updateProv_scopeCurrent,
                  Option.isSome]
                exact stackEq_trans (stackEq_updateProv _ _ _ (fun p => rfl))
                  (stackEq_trans (stackEq_of_eq rfl rfl)
                    (stackEq_trans (ih (.callExpr e _))
                      (stackEq_trans (stackEq_of_eq rfl rfl)
                        (stackEq_updateProv _ _ _ (fun p => rfl)))))
            | some t =>
              cases himpl : p.impl with
              | stored v =>
                simp only [evalStep, hp, hg, hcur, htg, himpl, updateProv_scopeCurrent,
                  Option.isSome]
                exact stackEq_trans (stackEq_updateProv _ _ _ (fun p => rfl))
                  (stackEq_trans (stackEq_trackProperty _ t)
                    (stackEq_updateProv _ _ _ (fun p => rfl)))
              | binding e =>
                simp only [evalStep, hp, hg, hcur, htg, himpl, updateProv_scopeCurrent,
                  Option.isSome]
                exact stackEq_trans (stackEq_updateProv _ _ _ (fun p => rfl))
                  (stackEq_trans (stackEq_of_eq rfl rfl)
                    (stackEq_trans (ih (.callExpr e _))
                      (stackEq_trans (stackEq_of_eq rfl rfl)
                        (stackEq_trans (stackEq_trackProperty _ t)
                          (stackEq_updateProv _ _ _ (fun p => rfl))))))
    | callExpr e s =>
      cases e with
      | lit n => exact stackEq_refl s
      | read pid => exact ih (.callGet pid s)
      | add a b =>
        exact stackEq_trans (ih (.callExpr b (evalStep f (.callExpr a s)).1))
          (ih (.callExpr a s))
    | callGet pid s =>
      show stackEq (evalStep (f + 1) (.callGet pid s)).1 s
      cases hp : lookupProp s pid with
      | none =>
        simp only [evalStep, hp]
        exact stackEq_refl s
      | some pc =>
        simp only [evalStep, hp]
        cases hact : pc.active with
        | none => exact stackEq_refl s
        | some vid => exact ih (.callValue vid s)

theorem stackEq_setValue (f vid : Nat) (v : Int) (s : PState) :
    stackEq (setValue f vid v s) s := by
  cases f with
  | zero => exact stackEq_refl s
  | succ f =>
    cases hp : lookupProv s vid with
    | none =>
      simp only [setValue, hp]
      exact stackEq_refl s
    | some p =>
      cases himpl : p.impl with
      | binding e =>
        simp only [setValue, hp, himpl]
        exact stackEq_refl s
      | stored w =>
        by_cases hw : w = v
        · simp only [setValue, hp, himpl, hw, eq_self_iff_true, if_true]
          exact stackEq_refl s
        · by_cases hst : p.state = .active
          · cases htg : p.target with
            | none =>
              simp only [setValue, hp, himpl, if_neg hw, if_pos hst, htg]
              exact stackEq_updateProv _ _ _ (fun p => rfl)
            | some t =>
              simp only [setValue, hp, himpl, if_neg hw, if_pos hst, htg]
              exact stackEq_trans (stackEq_chStep f (.callSig t _))
                (stackEq_updateProv _ _ _ (fun p => rfl))
          · simp only [setValue, hp, himpl, if_neg hw, if_neg hst]
            exact stackEq_updateProv _ _ _ (fun p => rfl)

theorem stackEq_setStateV (f vid : Nat) (st : PropertyValueState) (s : PState) :
    stackEq (setStateV f vid st s) s := by
  cases f with
  | zero => exact stackEq_refl s
  | succ f =>
    cases st with
    | active =>
      exact stackEq_trans (stackEq_evalStep f (.callValue vid _))
        (stackEq_updateProv _ _ _ (fun p => rfl))
    | inactive =>
      exact stackEq_trans (stackEq_clearTrackables _ vid)
        (stackEq_updateProv _ _ _ (fun p => rfl))
    | detaching =>
      exact stackEq_trans (stackEq_clearTrackables _ vid)
        (stackEq_updateProv _ _ _ (fun p => rfl))
    | detached => exact stackEq_updateProv _ _ _ (fun p => rfl)
    | attaching => exact stackEq_updateProv _ _ _ (fun p => rfl)

theorem stackEq_deactivateValue (f vid : Nat) (s : PState) :
    stackEq (deactivateValue f vid s) s := by
  cases f with
  | zero => exact stackEq_refl s
  | succ f => exact stackEq_setStateV f vid .inactive s

theorem stackEq_attachValue (f vid pid : Nat) (s : PState) :
    stackEq (attachValue f vid pid s) s := by
  cases f with
  | zero => exact stackEq_refl s
  | succ f =>
    exact stackEq_trans (stackEq_setStateV f vid .inactive _)
      (stackEq_trans (stackEq_updateProv _ _ _ (fun p => rfl))
        (stackEq_setStateV f vid .attaching s))

theorem stackEq_detachValue (f vid : Nat) (s : PState) :
    stackEq (detachValue f vid s) s := by
  cases f with
  | zero => exact stackEq_refl s
  | succ f =>
    exact stackEq_trans (stackEq_setStateV f vid .detached _)
      (stackEq_trans (stackEq_updateProv _ _ _ (fun p => rfl))
        (stackEq_setStateV f vid .detaching s))

theorem stackEq_activateValue (f vid : Nat) (s : PState) :
    stackEq (activateValue f vid s) s := by
  cases f with
  | zero => exact stackEq_refl s
  | succ f =>
    by_cases hact : provState s vid = .inactive
    · simp only [activateValue, if_pos hact]
      cases hp : lookupProv (setStateV f vid .active s) vid with
      | none => exact stackEq_setStateV f vid .active s
      | some p =>
        show stackEq (match p.target with
          | some t => emitChanged f t (setStateV f vid PropertyValueState.active s)
          | none => setStateV f vid PropertyValueState.active s) s
        cases htg : p.target with
        | none => exact stackEq_setStateV f vid .active s
        | some t =>
          exact stackEq_trans (stackEq_chStep f (.callSig t _))
            (stackEq_setStateV f vid .active s)
    · simp only [activateValue, if_neg hact]
      exact stackEq_refl s

theorem discard_foldls_stackEq (f : Nat) (ids : List Nat) (s : PState) :
    stackEq (ids.foldl (fun st vid => detachValue f vid st)
      (ids.foldl (fun st vid =>
        if provState st vid = .active then deactivateValue f vid st else st) s)) s :=
  stackEq_trans
    (stackEq_foldl _ (fun st x => stackEq_detachValue f x st) ids _)
    (stackEq_foldl _ (fun st x => by
      by_cases h : provState st x = .active
      · rw [if_pos h]
        exact stackEq_deactivateValue f x st
      · rw [if_neg h]
        exact stackEq_refl st) ids s)

theorem discardValues_wbEq (f pid : Nat) (s : PState) :
    wbEq (discardValues f pid s) s := by
  cases f with
  | zero => exact fun v => rfl
  | succ f =>
    cases hp : lookupProp s pid with
    | none =>
      simp only [discardValues, hp]
      exact fun v => rfl
    | some pc =>
      simp only [discardValues, hp]
      have hse := discard_foldls_stackEq f (pc.vp.filter (fun vid => provIsDiscard s vid)) s
      split
      · split
        · intro v
          rw [(stackEq_activateValue f _ _).1 v]
          exact hse.1 v
        · intro v
          exact hse.1 v
      · intro v
        exact hse.1 v

theorem vpOf_updateProp_self (s : PState) (i : Nat) (f : PropCore → PropCore) :
    vpOf (updateProp s i f) i = (lookupProp s i).map (fun pc => (f pc).vp) := by
  show (lookupAssoc (updAssoc s.props i f) i).map (fun pc => pc.vp) =
    (lookupAssoc s.props i).map (fun pc => (f pc).vp)
  rw [lookupAssoc_updAssoc_self]
  cases lookupAssoc s.props i <;> rfl

theorem discardValues_vp (f pid : Nat) (s : PState) (pc : PropCore)
    (hp : lookupProp s pid = some pc) :
    vpOf (discardValues (f + 1) pid s) pid =
      some (pc.vp.filter (fun vid => !provIsDiscard s vid)) := by
  simp only [discardValues, hp]
  have hse := discard_foldls_stackEq f (pc.vp.filter (fun vid => provIsDiscard s vid)) s
  have hvp2 : vpOf (List.foldl (fun st vid => detachValue f vid st)
      (List.foldl (fun st vid =>
        if provState st vid = .active then deactivateValue f vid st else st) s
        (pc.vp.filter (fun vid => provIsDiscard s vid)))
      (pc.vp.filter (fun vid => provIsDiscard s vid))) pid = some pc.vp := by
    rw [hse.2 pid]
    show (lookupProp s pid).map (fun pc => pc.vp) = _
    rw [hp]
    rfl
  split
  · split
    next last heq =>
      rw [(stackEq_activateValue f _ _).2 pid,
        (stackEq_updateProp _ pid (fun pc => { pc with active := some last })
          (fun pc => rfl)).2 pid,
        vpOf_updateProp_self]
      cases hl2 : lookupProp (List.foldl (fun st vid => detachValue f vid st)
          (List.foldl (fun st vid =>
            if provState st vid = .active then deactivateValue f vid st else st) s
            (pc.vp.filter (fun vid => provIsDiscard s vid)))
          (pc.vp.filter (fun vid => provIsDiscard s vid))) pid with
      | none =>
        rw [vpOf, hl2] at hvp2
        cases hvp2
      | some pc2 =>
        rw [vpOf, hl2, Option.map_some'] at hvp2
        obtain hvp3 := Option.some.inj hvp2
        rw [Option.map_some']
        simp [hvp3]
    next heq =>
      rw [(stackEq_updateProp _ pid (fun pc => { pc with active := none })
          (fun pc => rfl)).2 pid,
        vpOf_updateProp_self]
      cases hl2 : lookupProp (List.foldl (fun st vid => detachValue f vid st)
          (List.foldl (fun st vid =>
            if provState st vid = .active then deactivateValue f vid st else st) s
            (pc.vp.filter (fun vid => provIsDiscard s vid)))
          (pc.vp.filter (fun vid => provIsDiscard s vid))) pid with
      | none =>
        rw [vpOf, hl2] at hvp2
        cases hvp2
      | some pc2 =>
        rw [vpOf, hl2, Option.map_some'] at hvp2
        obtain hvp3 := Option.some.inj hvp2
        rw [Option.map_some']
        simp [hvp3]
  · rw [vpOf_updateProp_self]
    cases hl2 : lookupProp (List.foldl (fun st vid => detachValue f vid st)
        (List.foldl (fun st vid =>
          if provState st vid = .active then deactivateValue f vid st else st) s
          (pc.vp.filter (fun vid => provIsDiscard s vid)))
        (pc.vp.filter (fun vid => provIsDiscard s vid))) pid with
    | none =>
      rw [vpOf, hl2] at hvp2
      cases hvp2
    | some pc2 =>
      rw [vpOf, hl2, Option.map_some'] at hvp2
      obtain hvp3 := Option.some.inj hvp2
      rw [Option.map_some']
      simp [hvp3]

theorem provIsDiscard_eq_of_wb {s1 s2 : PState} {v : Nat}
    (h : wbOf s1 v = wbOf s2 v) : provIsDiscard s1 v = provIsDiscard s2 v := by
  cases h1 : lookupProv s1 v with
  | none =>
    cases h2 : lookupProv s2 v with
    | none => rw [provIsDiscard, provIsDiscard, h1, h2]
    | some p2 =>
      rw [wbOf, wbOf, h1, h2] at h
      cases h
  | some p1 =>
    cases h2 : lookupProv s2 v with
    | none =>
      rw [wbOf, wbOf, h1, h2] at h
      cases h
    | some p2 =>
      rw [wbOf, wbOf, h1, h2, Option.map_some', Option.map_some'] at h
      obtain h3 := Option.some.inj h
      rw [provIsDiscard, provIsDiscard, h1, h2]
      simp [h3]

theorem discardValues_no_discard (f pid : Nat) (s : PState) (pc : PropCore)
    (hp : lookupProp (discardValues (f + 1) pid s) pid = some pc) :
    ∀ vid ∈ pc.vp, provIsDiscard (discardValues (f + 1) pid s) vid = false := by
  intro vid hmem
  cases hp0 : lookupProp s pid with
  | none =>
    rw [show discardValues (f + 1) pid s = s from by simp only [discardValues, hp0]] at hp
    rw [hp0] at hp
    cases hp
  | some pc0 =>
    have hvp := discardValues_vp f pid s pc0 hp0
    rw [vpOf, hp, Option.map_some'] at hvp
    obtain hpcvp := Option.some.inj hvp
    rw [hpcvp] at hmem
    have hmem2 := List.of_mem_filter hmem
    have hdis : provIsDiscard s vid = false := by
      cases hd : provIsDiscard s vid with
      | false => rfl
      | true =>
        rw [hd] at hmem2
        cases hmem2
    have hwb := (discardValues_wbEq (f + 1) pid s) vid
    exact (provIsDiscard_eq_of_wb hwb).trans hdis

theorem propSet_no_discard (f pid : Nat) (v : Int) (s : PState) (pc : PropCore)
    (hp : lookupProp (propSet (f + 2) pid v s) pid = some pc) :
    ∀ vid ∈ pc.vp, provIsDiscard (propSet (f + 2) pid v s) vid = false := by
  have hstep : propSet (f + 2) pid v s =
      (match lookupProp (discardValues (f + 1) pid s) pid with
       | none => discardValues (f + 1) pid s
       | some pc2 =>
         match pc2.active with
         | none => discardValues (f + 1) pid s
         | some vid2 => setValue (f + 1) vid2 v (discardValues (f + 1) pid s)) := rfl
  intro vid hmem
  cases hl1 : lookupProp (discardValues (f + 1) pid s) pid with
  | none =>
    have he : propSet (f + 2) pid v s = discardValues (f + 1) pid s := by
      rw [hstep]
      simp only [hl1]
    rw [he] at hp
    rw [hl1] at hp
    cases hp
  | some pc1 =>
    cases hact : pc1.active with
    | none =>
      have he : propSet (f + 2) pid v s = discardValues (f + 1) pid s := by
        rw [hstep]
        simp only [hl1, hact]
      rw [he] at hp ⊢
      exact discardValues_no_discard f pid s pc hp vid hmem
    | some avid =>
      have he : propSet (f + 2) pid v s =
          setValue (f + 1) avid v (discardValues (f + 1) pid s) := by
        rw [hstep]
        simp only [hl1, hact]
      rw [he] at hp ⊢
      have hsv := stackEq_setValue (f + 1) avid v (discardValues (f + 1) pid s)
      have hvp : vpOf (setValue (f + 1) avid v (discardValues (f + 1) pid s)) pid =
          vpOf (discardValues (f + 1) pid s) pid := hsv.2 pid
      rw [vpOf, vpOf, hp, hl1, Option.map_some', Option.map_some'] at hvp
      obtain hpc := Option.some.inj hvp
      have hd := discardValues_no_discard f pid s pc1 hl1 vid (hpc ▸ hmem)
      exact (provIsDiscard_eq_of_wb (hsv.1 vid)).trans hd

theorem setValue_no_change (f vid : Nat) (v : Int) (s : PState) (p : Provider)
    (hp : lookupProv s vid = some p) (himpl : p.impl = .stored v) :
    setValue f vid v s = s := by
  cases f with
  | zero => rfl
  | succ f => simp [setValue, hp, himpl]

theorem evaluateValue_guarded (f vid : Nat) (s : PState) (p : Provider)
    (hp : lookupProv s vid = some p) (hg : p.guardEvaluate = true) :
    evaluateValue (f + 1) vid s = (s, 0) := by
  simp [evaluateValue, evalStep, hp, hg]

end Prp

/-! ## Theorems about the claims -/

namespace Sig

/-- **C4.** For every signal and every emit call: if the signal is blocked,
or its re-entry flag (`m_emitGuard`) is already set — in particular when
`operator()` is entered re-entrantly from a slot during an ongoing emission
of the same signal — the emission returns the default-constructed collector
(zero handled activations) and activates no slot: the state, including the
activation log, is returned unchanged. -/
theorem emit_blocked_or_reentrant_returns_empty (fuel : Nat) (s : SigState)
    (h : s.blocked = true ∨ s.emitGuard = true) :
    emit fuel s = (s, .ok 0) :=
  emit_stuck fuel s h

/-- Witness for C4 at a concrete input: a blocked signal with one connected
slot emits the empty collector and leaves the state unchanged. -/
theorem emit_blocked_or_reentrant_returns_empty_witness :
    emit 5 { sceneOne with blocked := true } = ({ sceneOne with blocked := true }, .ok 0) :=
  emit_blocked_or_reentrant_returns_empty 5 { sceneOne with blocked := true } (Or.inl rfl)

/-- **C5.** For every emit: the activated slots form an in-order sublist of
the snapshot taken at the start of the emission, so only slots present and
connected in the list at snapshot time are dispatched, in connection order;
a slot connected during the emission (not yet in the slot list) is never
activated in that emission.  Concretely: in `sceneConn` slot 0 connects a
new slot (id 2) while the signal emits — the emission activates `[0, 1]`
only, the new slot is in the slot list afterwards, and the next emission
activates it (`[0, 1, 2]` appended to the log); in `sceneSkip` slot 0
disconnects snapshot slot 1 before its turn, and slot 1 is skipped, not
invoked (`[0, 2]`). -/
theorem emit_dispatches_snapshot_in_order :
    (∀ (fuel : Nat) (s : SigState),
      ∃ δ, (emit fuel s).1.log = s.log ++ δ ∧ δ.Sublist (emitSnapshot s) ∧
        ∀ j, j ∉ s.slotList → j ∉ δ) ∧
    (emit 100 sceneConn).1.log = [0, 1] ∧
    (emit 100 sceneConn).1.slotList = [0, 1, 2] ∧
    (emit 100 (emit 100 sceneConn).1).1.log = [0, 1, 0, 1, 2] ∧
    (emit 100 sceneSkip).1.log = [0, 2] := by
  refine ⟨?_, by decide, by decide, by decide, by decide⟩
  intro fuel s
  obtain ⟨δ, h1, h2⟩ := emit_log fuel s
  refine ⟨δ, h1, h2, fun j hj hmem => hj ?_⟩
  have h3 : j ∈ List.filter (connIsValid s) s.slotList := by
    simpa [emitSnapshot] using h2.subset hmem
  exact List.mem_of_mem_filter h3

/-- Witness for C5 at concrete inputs: applying the general conjunct to
`sceneOne` with fuel 5 and the absent slot id 7. -/
theorem emit_dispatches_snapshot_in_order_witness :
    ∃ δ, (emit 5 sceneOne).1.log = sceneOne.log ++ δ ∧ δ.Sublist (emitSnapshot sceneOne) ∧
      7 ∉ δ := by
  obtain ⟨δ, h1, h2, h3⟩ := emit_dispatches_snapshot_in_order.1 5 sceneOne
  exact ⟨δ, h1, h2, h3 7 (by decide)⟩

/-- **C6 (corrected).** For every connection handle to a slot: after
`Connection::disconnect` the handle reports invalid, and no later emit
activates that slot.  A second `Connection::disconnect` through the same
handle changes no state, and a second `SignalConcept::disconnect` after a
first `SignalConcept::disconnect` changes no state.  However,
`SignalConcept::disconnect` after `Connection::disconnect` is not a pure
no-op: it removes the already-disconnected slot from the signal's slot list
(and changes nothing else) because `Connection::disconnect` never removes
the slot from `m_slots`. -/
theorem disconnect_invalidates_and_second_disconnect :
    (∀ (s : SigState) (i : Nat), connIsValid (connDisconnect s i) i = false) ∧
    (∀ (fuel : Nat) (s : SigState) (i : Nat) (sl : Slot),
      lookupSlot s i = some sl → sl.connected = false →
      ∃ δ, (emit fuel s).1.log = s.log ++ δ ∧ i ∉ δ) ∧
    (∀ (s : SigState) (i : Nat), connDisconnect (connDisconnect s i) i = connDisconnect s i) ∧
    (∀ (s : SigState) (i : Nat),
      signalDisconnect (signalDisconnect s i) i = signalDisconnect s i) ∧
    (∀ (s : SigState) (i : Nat) (sl : Slot), lookupSlot s i = some sl →
      signalDisconnect (connDisconnect s i) i =
        { connDisconnect s i with
          slotList := (connDisconnect s i).slotList.filter (fun j => j ≠ i) }) := by
  refine ⟨?_, ?_, connDisconnect_idem, signalDisconnect_idem,
    fun s i sl h => signalDisconnect_after_connDisconnect h⟩
  · exact fun s i => slotFlagOff_connIsValid (connDisconnect_flagOff s i)
  · intro fuel s i sl hls hc
    obtain ⟨δ, h1, h2⟩ := emit_log fuel s
    refine ⟨δ, h1, fun hmem => ?_⟩
    have hflag : slotFlagOff s i := by
      intro sl2 h2a
      rw [hls] at h2a
      obtain rfl := Option.some.inj h2a
      exact hc
    have h3 : i ∈ List.filter (connIsValid s) s.slotList := by
      simpa [emitSnapshot] using h2.subset hmem
    rw [List.mem_filter, slotFlagOff_connIsValid hflag] at h3
    cases h3.2

/-- Witness for the corrected C6 at a concrete input: the single connected
slot of `sceneOne`, its handle after disconnect, the emit that skips it, the
two idempotence equations, and the list-cleanup equation. -/
theorem disconnect_invalidates_and_second_disconnect_witness :
    connIsValid (connDisconnect sceneOne 0) 0 = false ∧
    (∃ δ, (emit 5 (connDisconnect sceneOne 0)).1.log = (connDisconnect sceneOne 0).log ++ δ ∧
      0 ∉ δ) ∧
    signalDisconnect (connDisconnect sceneOne 0) 0 =
      { connDisconnect sceneOne 0 with
        slotList := (connDisconnect sceneOne 0).slotList.filter (fun j => j ≠ 0) } := by
  refine ⟨disconnect_invalidates_and_second_disconnect.1 sceneOne 0, ?_, ?_⟩
  · exact disconnect_invalidates_and_second_disconnect.2.1 5 (connDisconnect sceneOne 0) 0
      { connected := false, trackers := [], action := .ret } (by decide) rfl
  · exact disconnect_invalidates_and_second_disconnect.2.2.2.2 sceneOne 0
      { connected := true, trackers := [], action := .ret } (by decide)

/-- **C7.** During emission, a slot whose activation fails with `bad_slot`
or `bad_weak_ptr` is caught by the signal: that slot is disconnected and
removed (its handles become invalid) and dispatch continues with the next
snapshot slot, so an emission over slots that only return or fail with
`bad_slot`/`bad_weak_ptr` always completes with an `.ok` collector; any
other exception thrown by a callable propagates out of `operator()`.
Concretely: in `sceneBad` (slots ret, raise-bad_slot, ret) slots 0 and 2 are
activated, slot 1 is removed from the slot list, its handle is invalid, and
the collector reports two handled activations; in `sceneOther` (slots ret,
raise-other, ret) the emission stops with the propagated error after slot 0
ran, and the emit guard is still released on the exceptional path. -/
theorem emit_catches_bad_slot_and_propagates_other :
    (∀ (fuel : Nat) (s : SigState), benignActions s → ∃ n, (emit fuel s).2 = .ok n) ∧
    (emit 100 sceneBad).1.log = [0, 2] ∧
    (emit 100 sceneBad).1.slotList = [0, 2] ∧
    connIsValid (emit 100 sceneBad).1 1 = false ∧
    (emit 100 sceneBad).2 = .ok 2 ∧
    (emit 100 sceneOther).2 = .error () ∧
    (emit 100 sceneOther).1.log = [0] ∧
    (emit 100 sceneOther).1.emitGuard = false := by
  exact ⟨fun fuel s hb => (emit_benign_ok fuel).1 s hb, by decide, by decide, by decide,
    by decide, by decide, by decide, by decide⟩

/-- Witness for C7 at a concrete input: the benign state `sceneBad` gives an
`.ok` collector. -/
theorem emit_catches_bad_slot_and_propagates_other_witness :
    ∃ n, (emit 100 sceneBad).2 = .ok n :=
  emit_catches_bad_slot_and_propagates_other.1 100 sceneBad (by decide)

/-- **C8.** For every `ConnectionTracker` and every slot it tracks:
destroying the tracker (whose destructor runs `clearTrackables`, i.e.
`disconnectTrackedConnections`) synchronously disconnects every tracked
slot, so immediately afterwards every connection handle to those slots
reports invalid.  Concretely: in `sceneTrk` the tracker (id 0) tracks the
two connected slots 0 and 1, whose handles are valid before the destruction
and invalid after it. -/
theorem tracker_destruction_invalidates_tracked_handles :
    (∀ (s : SigState) (tid : Nat), ∀ i ∈ trackedOf s tid,
        connIsValid (trackerDestroy s tid) i = false) ∧
    trackedOf sceneTrk 0 = [0, 1] ∧
    connIsValid sceneTrk 0 = true ∧
    connIsValid sceneTrk 1 = true ∧
    connIsValid (trackerDestroy sceneTrk 0) 0 = false ∧
    connIsValid (trackerDestroy sceneTrk 0) 1 = false :=
  ⟨trackerDestroy_invalidates, by decide, by decide, by decide, by decide, by decide⟩

/-- Witness for C8 at a concrete input: the tracker of `sceneTrk` tracks
slot 0, and after the tracker's destruction the handle to slot 0 is
invalid. -/
theorem tracker_destruction_invalidates_tracked_handles_witness :
    connIsValid (trackerDestroy sceneTrk 0) 0 = false :=
  tracker_destruction_invalidates_tracked_handles.1 sceneTrk 0 0 (by decide)

/-- **C10.** `SlotConcept::isConnected` is total: it returns `true` exactly
when the connected flag is set and every bound tracker reports valid, and
when querying the trackers' validity throws, it returns `false` (the
catch-all handler reports the slot disconnected) instead of propagating the
exception. -/
theorem is_connected_total_and_swallows_tracker_exceptions :
    (∀ (s : SigState) (sl : Slot),
        slotIsConnected s sl = true ↔
          (sl.connected = true ∧ ∀ t ∈ sl.trackers, trackerIsValid s t = .ok true)) ∧
    (∀ (s : SigState) (sl : Slot),
        findInvalidTracker s sl.trackers = .error () → slotIsConnected s sl = false) :=
  ⟨slotIsConnected_true_iff, slotIsConnected_of_error⟩

/-- Witness for C10 at concrete inputs: a connected slot bound to a throwing
tracker reports disconnected, and a connected slot with no trackers reports
connected. -/
theorem is_connected_total_and_swallows_tracker_exceptions_witness :
    slotIsConnected sig0
      { connected := true, trackers := [TrackerRef.throwingTracker],
        action := SlotAction.ret } = false ∧
    slotIsConnected sig0
      { connected := true, trackers := [], action := SlotAction.ret } = true :=
  ⟨is_connected_total_and_swallows_tracker_exceptions.2 sig0
      { connected := true, trackers := [TrackerRef.throwingTracker],
        action := SlotAction.ret } (by decide),
   (is_connected_total_and_swallows_tracker_exceptions.1 sig0
      { connected := true, trackers := [], action := SlotAction.ret }).mpr
     ⟨rfl, by decide⟩⟩

/-- **C6 counterexample.** The claim "a second disconnect through the same
handle (`H.disconnect()` or `S.disconnect(H)`) is a no-op that changes no
state" is false as stated: after `H.disconnect()` on the single slot of
`sceneOne`, `S.disconnect(H)` removes the slot from the signal's slot list,
a state change. -/
theorem second_disconnect_changes_state_counterexample :
    signalDisconnect (connDisconnect sceneOne 0) 0 ≠ connDisconnect sceneOne 0 := by
  decide

end Sig

namespace Prp

/-- **C1 (code bug).** In the bind scenario (`P = Property(0)`,
`Q = Property(0)`, `P.bind(|| Q + 1)`), the values are as claimed —
`P.get() == 1` after the bind and `P.get() == 11` after `Q.set(10)` — but
`P.changed` does not fire exactly once for the set: the observer counter
goes from 1 (after the bind) to 3 (after the set), because
`PropertyValue::evaluate` never clears the previous dependency
subscriptions, so the `P.get()` read re-subscribed the binding to `Q.changed`
(`Q`'s slot list grows from one to two forwarding slots) and `Q.set(10)`
then fired `P.changed` once per duplicate subscription. -/
theorem binding_fires_once_per_duplicate_subscription :
    counterValue sceneS4d.1 0 = 1 ∧
    (propGet 30 0 sceneS4d.1).2 = 1 ∧
    (lookupProp sceneS4d.1 1).map (fun pc => pc.changed.slots) = some [1] ∧
    (lookupProp sceneS4e 1).map (fun pc => pc.changed.slots) = some [1, 2] ∧
    counterValue sceneS4f 0 = 3 ∧
    (propGet 30 0 sceneS4f).2 = 11 := by
  decide

/-- **C2.** After `P.bind(...)` then `P.set(v)`: `P.get()` returns `v`, no
provider with `WriteBehavior::Discard` remains in the property's provider
stack after any `Property::operator=` (the general conjunct), and the top
remaining Keep provider is the re-activated active provider; subsequent
writes to the property the expression read no longer affect `P`.
Concretely, in the scene-5 state `sceneS5a` (`P.set(99)` after the bind):
`P.get() == 99`, the stack is `[0]` with the Keep provider 0 active and the
binding provider 2 detached, and `Q.set(20)` changes neither `P`'s value nor
its change count. -/
theorem set_discards_binding_and_restores_keep :
    (∀ (f pid : Nat) (v : Int) (s : PState) (pc : PropCore),
        lookupProp (propSet (f + 2) pid v s) pid = some pc →
        ∀ vid ∈ pc.vp, provIsDiscard (propSet (f + 2) pid v s) vid = false) ∧
    (propGet 30 0 sceneS5a).2 = 99 ∧
    (lookupProp sceneS5a 0).map (fun pc => (pc.vp, pc.active)) = some ([0], some 0) ∧
    provState sceneS5a 2 = .detached ∧
    provState sceneS5a 0 = .active ∧
    provIsDiscard sceneS5a 0 = false ∧
    (propGet 30 0 sceneS5b).2 = 99 ∧
    counterValue sceneS5b 0 = counterValue sceneS5a 0 :=
  ⟨propSet_no_discard, by decide, by decide, by decide, by decide, by decide,
    by decide, by decide⟩

/-- Witness for C2 at a concrete input: the general conjunct applied to the
scene-5 write `P.set(99)` and the Keep provider 0 left on the stack. -/
theorem set_discards_binding_and_restores_keep_witness :
    provIsDiscard (propSet (28 + 2) 0 99 (propGet 30 0 sceneS4f).1) 0 = false :=
  set_discards_binding_and_restores_keep.1 28 0 99 (propGet 30 0 sceneS4f).1
    { changed := { slots := [0], emitGuard := false, blocked := false,
                   trackedConnections := [1, 2, 3] },
      vp := [0], active := some 0, connectedPropertyValues := [] }
    (by decide) 0 (by decide)

/-- **C3 (corrected).** If the active provider's `set(v)` reports no change
(the stored value already equals `v`), the state is returned unchanged, so
`changed` does not fire — this holds for `PropertyValue::set` and for the
whole `Property::operator=` path.  However, the claim's extension to
`addPropertyValue` is false: activating a provider emits `changed`
unconditionally, without comparing values (see the counterexample). -/
theorem no_change_set_is_silent :
    (∀ (f vid : Nat) (v : Int) (s : PState) (p : Provider),
        lookupProv s vid = some p → p.impl = .stored v → setValue f vid v s = s) ∧
    propSet 30 0 0 sceneAddA = sceneAddA ∧
    counterValue sceneAddA 0 = 0 ∧
    counterValue sceneAddB.1 0 = 1 ∧
    (propGet 30 0 sceneAddB.1).2 = (propGet 30 0 sceneAddA).2 :=
  ⟨setValue_no_change, by decide, by decide, by decide, by decide⟩

/-- Witness for the corrected C3 at a concrete input: writing the current
value 0 through `PropertyValue::set` leaves the scene state unchanged. -/
theorem no_change_set_is_silent_witness :
    setValue 7 0 0 sceneAddA = sceneAddA :=
  no_change_set_is_silent.1 7 0 0 sceneAddA
    { writeBehavior := .keep, state := .active, target := some 0,
      guardEvaluate := false, impl := .stored 0,
      trackedConnections := [], sourceProperties := [] }
    (by decide) (by decide)

/-- **C3 counterexample.** The claim "`changed` never fires for a value that
equals the previously observed value ... including `add_provider` and
provider activation" is false: adding a Discard provider that stores the
same value 0 to a property whose value is 0 leaves the observed value at 0
yet fires `changed` once (the repository's own test
`addSecondUserPropertyValue` expects exactly this firing). -/
theorem activation_fires_for_equal_value_counterexample :
    (propGet 30 0 sceneAddA).2 = 0 ∧
    counterValue sceneAddA 0 = 0 ∧
    (propGet 30 0 sceneAddB.1).2 = 0 ∧
    counterValue sceneAddB.1 0 = 1 := by
  decide

/-- **C9.** When `PropertyValue::evaluate` is re-entered while an evaluation
of the same provider is in progress (`m_guardEvaluate` already locked), the
inner `evaluate` returns the value type's default (0) and is a complete
no-op on the state (the general conjunct); no error surfaces and the outer
evaluation completes normally.  Concretely, in the cyclic-binding scene
(`P.bind(|| P + 1)`): reading `P` terminates with value 0 + 1 = 1 and an
unchanged state, `P.changed` fired only the single activation-time emission,
and the cyclic inner evaluation registered no dependency (the binding
provider tracks no connections and no source properties). -/
theorem cyclic_inner_evaluate_returns_default :
    (∀ (f vid : Nat) (s : PState) (p : Provider),
        lookupProv s vid = some p → p.guardEvaluate = true →
        evaluateValue (f + 1) vid s = (s, 0)) ∧
    propGet 50 0 sceneCyc.1 = (sceneCyc.1, 1) ∧
    counterValue sceneCyc.1 0 = 1 ∧
    (lookupProv sceneCyc.1 1).map (fun p => (p.trackedConnections, p.sourceProperties)) =
      some ([], []) :=
  ⟨evaluateValue_guarded, by decide, by decide, by decide⟩

/-- Witness for C9 at a concrete input: the cyclic-scene binding provider
with its evaluation guard locked evaluates to the default 0 with the state
unchanged. -/
theorem cyclic_inner_evaluate_returns_default_witness :
    evaluateValue (4 + 1) 1
      (updateProv sceneCyc.1 1 (fun p => { p with guardEvaluate := true })) =
      (updateProv sceneCyc.1 1 (fun p => { p with guardEvaluate := true }), 0) :=
  cyclic_inner_evaluate_returns_default.1 4 1
    (updateProv sceneCyc.1 1 (fun p => { p with guardEvaluate := true }))
    { writeBehavior := .discard, state := .active, target := some 0,
      guardEvaluate := true, impl := .binding (.add (.read 0) (.lit 1)),
      trackedConnections := [], sourceProperties := [] }
    (by decide) (by decide)

end Prp

end LibComp
